import Mathlib

/-!
Verification development for the stop-motion builder's video-export pipeline:
the byte stream writer (ArrayBufferDataStream), the EBML element tree writer,
the WebM muxer's cluster state machine, and the clip compositor.

Numbers handled by the JavaScript source are embedded as follows: integer
quantities (byte values, positions, sizes, VINT values) become Nat or Int with
the ToUint8 / ToInt32 wrapping of JS typed arrays and bitwise operators made
explicit; wall-clock timestamps, which the muxer divides by 1000, become exact
rationals.
-/

set_option maxRecDepth 10000

/-- ToUint8 conversion applied by a JS Uint8Array store: the value modulo 256
(Int.emod, hence always in [0, 256)). -/
def toUint8 (n : ℤ) : ℤ := n % 256

/-- ToInt32 conversion applied by JS bitwise operators: reduce modulo 2^32 and
reinterpret as a signed 32-bit value. -/
def toInt32 (n : ℤ) : ℤ :=
  if n % 4294967296 < 2147483648 then n % 4294967296 else n % 4294967296 - 4294967296

/-- JS arithmetic right shift a >> k: ToInt32 the operand, then shift, which on
a signed value is floor division by 2 ^ k (Int.ediv coincides with floor
division for a positive divisor). -/
def jsShr (a : ℤ) (k : ℕ) : ℤ := toInt32 a / 2 ^ k

/-- JS bitwise or: ToInt32 both operands, or their 32-bit two's-complement
representations, reinterpret as signed. -/
def jsOr (a b : ℤ) : ℤ :=
  toInt32 (Int.ofNat (Nat.lor ((toInt32 a) % 4294967296).toNat ((toInt32 b) % 4294967296).toNat))

/-- JS bitwise and, same convention as jsOr. -/
def jsAnd (a b : ℤ) : ℤ :=
  toInt32 (Int.ofNat (Nat.land ((toInt32 a) % 4294967296).toNat ((toInt32 b) % 4294967296).toNat))

/-- The ArrayBufferDataStream of the source: a fixed-capacity byte buffer (a JS
Uint8Array, whose length never changes and whose out-of-range stores are
dropped, exactly as List.set drops out-of-range updates) plus a write cursor. -/
structure ArrayBufferDataStream where
  data : List ℤ
  pos : ℕ
deriving DecidableEq

namespace ArrayBufferDataStream

/-- Constructor: new ArrayBufferDataStream(length) allocates a zero-filled
buffer of the given capacity with the cursor at 0. -/
def create (length : ℕ) : ArrayBufferDataStream := ⟨List.replicate length 0, 0⟩

/-- seek(toOffset) repositions the cursor. -/
def seek (s : ArrayBufferDataStream) (toOffset : ℕ) : ArrayBufferDataStream :=
  { s with pos := toOffset }

/-- writeByte(b): this.data[this.pos++] = b. The Uint8Array store applies
ToUint8; a store beyond the capacity is dropped but the cursor still moves. -/
def writeByte (s : ArrayBufferDataStream) (b : ℤ) : ArrayBufferDataStream :=
  { data := s.data.set s.pos (toUint8 b), pos := s.pos + 1 }

/-- writeU8 is an alias for writeByte in the source. -/
def writeU8 (s : ArrayBufferDataStream) (b : ℤ) : ArrayBufferDataStream :=
  s.writeByte b

/-- writeBytes(arr): store each byte in turn. -/
def writeBytes (s : ArrayBufferDataStream) (arr : List ℤ) : ArrayBufferDataStream :=
  arr.foldl writeByte s

/-- writeString(s): stores each character code; byte-for-byte the same loop as
writeBytes, with the character codes given as integers. -/
def writeString (s : ArrayBufferDataStream) (cs : List ℤ) : ArrayBufferDataStream :=
  cs.foldl writeByte s

/-- writeU16BE(u): writes u >> 8 then u. -/
def writeU16BE (s : ArrayBufferDataStream) (u : ℤ) : ArrayBufferDataStream :=
  (s.writeByte (jsShr u 8)).writeByte u

/-- writeEBMLVarIntWidth(i, width) from the source, emitting the EBML VINT
marker bits or-ed with the value's high bits followed by the remaining bytes.
The width-5 first byte divides by 2^32 (a JS float division whose result the
bitwise and truncates toward zero, which is Nat division for nonnegative i)
to reach above bit 31. Any width outside 1..5 hits the default branch, which
throws (Bad EBML VINT size), modeled as none. -/
def writeEBMLVarIntWidth (s : ArrayBufferDataStream) (i : ℕ) (width : ℕ) :
    Option ArrayBufferDataStream :=
  match width with
  | 1 => some (s.writeU8 (jsOr 128 (i : ℤ)))
  | 2 => some ((s.writeU8 (jsOr 64 (jsShr (i : ℤ) 8))).writeU8 (i : ℤ))
  | 3 => some (((s.writeU8 (jsOr 32 (jsShr (i : ℤ) 16))).writeU8 (jsShr (i : ℤ) 8)).writeU8 (i : ℤ))
  | 4 => some ((((s.writeU8 (jsOr 16 (jsShr (i : ℤ) 24))).writeU8
      (jsShr (i : ℤ) 16)).writeU8 (jsShr (i : ℤ) 8)).writeU8 (i : ℤ))
  | 5 => some (((((s.writeU8 (jsOr 8 (jsAnd ((i / 4294967296 : ℕ) : ℤ) 7))).writeU8
      (jsShr (i : ℤ) 24)).writeU8 (jsShr (i : ℤ) 16)).writeU8 (jsShr (i : ℤ) 8)).writeU8 (i : ℤ))
  | _ => none

/-- measureEBMLVarInt(val) from the source. The comparison bounds are the
source's (1 << 7) - 1 = 127, (1 << 14) - 1 = 16383, (1 << 21) - 1 = 2097151,
(1 << 28) - 1 = 268435455 and 34359738367 = 2^35 - 1; a value at or above the
last throws (EBML VINT size not supported), modeled as none. -/
def measureEBMLVarInt (val : ℕ) : Option ℕ :=
  if val < 127 then some 1
  else if val < 16383 then some 2
  else if val < 2097151 then some 3
  else if val < 268435455 then some 4
  else if val < 34359738367 then some 5
  else none

/-- writeEBMLVarInt(i) = writeEBMLVarIntWidth(i, measureEBMLVarInt(i)). -/
def writeEBMLVarInt (s : ArrayBufferDataStream) (i : ℕ) : Option ArrayBufferDataStream :=
  match measureEBMLVarInt i with
  | some w => writeEBMLVarIntWidth s i w
  | none => none

/-- measureUnsignedInt(val) from the source; bounds are 1 << 8, 1 << 16,
1 << 24 and 4294967296. -/
def measureUnsignedInt (val : ℤ) : ℕ :=
  if val < 256 then 1
  else if val < 65536 then 2
  else if val < 16777216 then 3
  else if val < 4294967296 then 4
  else 5

/-- writeUnsignedIntBE(u, width) from the source (the switch falls through so
width w emits the last w bytes of the 5-byte big-endian form); the width-5
lead byte is Math.floor(u / 2^32), floor division on integers. A width outside
1..5 throws (Bad UINT size), modeled as none. Call sites that omit the width
pass measureUnsignedInt u explicitly here. -/
def writeUnsignedIntBE (s : ArrayBufferDataStream) (u : ℤ) (width : ℕ) :
    Option ArrayBufferDataStream :=
  match width with
  | 1 => some (s.writeU8 u)
  | 2 => some ((s.writeU8 (jsShr u 8)).writeU8 u)
  | 3 => some (((s.writeU8 (jsShr u 16)).writeU8 (jsShr u 8)).writeU8 u)
  | 4 => some ((((s.writeU8 (jsShr u 24)).writeU8 (jsShr u 16)).writeU8 (jsShr u 8)).writeU8 u)
  | 5 => some (((((s.writeU8 (u / 4294967296)).writeU8 (jsShr u 24)).writeU8
      (jsShr u 16)).writeU8 (jsShr u 8)).writeU8 u)
  | _ => none

/-- getAsDataArray() from the source: the prefix of the buffer up to the
cursor when the cursor is within or at the capacity, otherwise a RangeError
(pos lies beyond end of buffer), modeled as none. -/
def getAsDataArray (s : ArrayBufferDataStream) : Option (List ℤ) :=
  if s.pos < s.data.length then some (s.data.take s.pos)
  else if s.pos = s.data.length then some s.data
  else none

end ArrayBufferDataStream

/-- Width class of an EBML VINT lead byte for a conformant decoder: the
position of the highest set bit determines the total width (1 to 8 bytes). -/
def vintWidthOfLeadByte (b : ℤ) : Option ℕ :=
  if 128 ≤ b then some 1
  else if 64 ≤ b then some 2
  else if 32 ≤ b then some 3
  else if 16 ≤ b then some 4
  else if 8 ≤ b then some 5
  else if 4 ≤ b then some 6
  else if 2 ≤ b then some 7
  else if 1 ≤ b then some 8
  else none

/-- Conformant EBML VINT decoder over an exact byte sequence: the lead byte's
high bits give the width, the remaining bits of the lead byte followed by the
continuation bytes give the value (big-endian). -/
def decodeVInt : List ℤ → Option (ℤ × ℕ)
  | [] => none
  | b :: rest =>
    match vintWidthOfLeadByte b with
    | none => none
    | some w =>
      if rest.length = w - 1 then
        some (rest.foldl (fun acc x => acc * 256 + x) (b - 2 ^ (8 - w)), w)
      else none

/-! ### Arithmetic facts about the JS number primitives -/

theorem nat_lor_two_pow_seven : ∀ n : ℕ, n < 128 → Nat.lor 128 n = 128 + n := by decide

theorem nat_lor_two_pow_six : ∀ n : ℕ, n < 64 → Nat.lor 64 n = 64 + n := by decide

theorem nat_lor_two_pow_five : ∀ n : ℕ, n < 32 → Nat.lor 32 n = 32 + n := by decide

theorem nat_lor_two_pow_four : ∀ n : ℕ, n < 16 → Nat.lor 16 n = 16 + n := by decide

theorem nat_lor_two_pow_three : ∀ n : ℕ, n < 8 → Nat.lor 8 n = 8 + n := by decide

theorem nat_land_seven : ∀ n : ℕ, n < 8 → Nat.land n 7 = n := by decide

theorem toInt32_small (n : ℤ) (h0 : 0 ≤ n) (h : n < 2147483648) : toInt32 n = n := by
  unfold toInt32
  rw [if_pos] <;> omega

theorem toUint8_small (n : ℤ) (h0 : 0 ≤ n) (h : n < 256) : toUint8 n = n := by
  unfold toUint8
  omega

/-- jsOr with a power-of-two marker and a small nonnegative second operand is
plain addition. -/
theorem jsOr_marker (m : ℤ) (x : ℤ) (hm : m = 128 ∨ m = 64 ∨ m = 32 ∨ m = 16 ∨ m = 8)
    (h0 : 0 ≤ x) (h : x < m) : jsOr m x = m + x := by
  unfold jsOr
  have hm' : toInt32 m = m := by rcases hm with h|h|h|h|h <;> subst h <;> decide
  have hx' : toInt32 x = x := toInt32_small x h0 (by omega)
  rw [hm', hx']
  have hxm : x % 4294967296 = x := by omega
  have hmm : m % 4294967296 = m := by omega
  rw [hxm, hmm]
  rcases hm with h|h|h|h|h <;> subst h
  · rw [show (128:ℤ).toNat = 128 from rfl, nat_lor_two_pow_seven x.toNat (by omega)]
    simp only [Int.ofNat_eq_natCast]
    rw [toInt32_small _ (by omega) (by omega)]
    omega
  · rw [show (64:ℤ).toNat = 64 from rfl, nat_lor_two_pow_six x.toNat (by omega)]
    simp only [Int.ofNat_eq_natCast]
    rw [toInt32_small _ (by omega) (by omega)]
    omega
  · rw [show (32:ℤ).toNat = 32 from rfl, nat_lor_two_pow_five x.toNat (by omega)]
    simp only [Int.ofNat_eq_natCast]
    rw [toInt32_small _ (by omega) (by omega)]
    omega
  · rw [show (16:ℤ).toNat = 16 from rfl, nat_lor_two_pow_four x.toNat (by omega)]
    simp only [Int.ofNat_eq_natCast]
    rw [toInt32_small _ (by omega) (by omega)]
    omega
  · rw [show (8:ℤ).toNat = 8 from rfl, nat_lor_two_pow_three x.toNat (by omega)]
    simp only [Int.ofNat_eq_natCast]
    rw [toInt32_small _ (by omega) (by omega)]
    omega

/-- The byte actually stored for writeU8(i >> 8) on a nonnegative integer. -/
theorem stored_jsShr8 (i : ℕ) : toUint8 (jsShr (i : ℤ) 8) = ((i / 256 % 256 : ℕ) : ℤ) := by
  unfold toUint8 jsShr toInt32
  norm_num
  split <;> omega

/-- The byte actually stored for writeU8(i >> 16) on a nonnegative integer. -/
theorem stored_jsShr16 (i : ℕ) : toUint8 (jsShr (i : ℤ) 16) = ((i / 65536 % 256 : ℕ) : ℤ) := by
  unfold toUint8 jsShr toInt32
  norm_num
  split <;> omega

/-- The byte actually stored for writeU8(i >> 24) on a nonnegative integer. -/
theorem stored_jsShr24 (i : ℕ) : toUint8 (jsShr (i : ℤ) 24) = ((i / 16777216 % 256 : ℕ) : ℤ) := by
  unfold toUint8 jsShr toInt32
  norm_num
  split <;> omega

/-- The byte actually stored for writeU8(i) on a nonnegative integer. -/
theorem stored_byte (i : ℕ) : toUint8 (i : ℤ) = ((i % 256 : ℕ) : ℤ) := by
  unfold toUint8
  omega

/-- jsShr on a nonnegative 32-bit value is Nat division by 2 ^ k. -/
theorem jsShr_ofNat_small (i : ℕ) (k : ℕ) (h : (i : ℤ) < 2147483648) :
    jsShr (i : ℤ) k = ((i / 2 ^ k : ℕ) : ℤ) := by
  unfold jsShr
  rw [toInt32_small _ (by omega) h]
  push_cast
  rfl

/-- jsAnd with 7 on a small nonnegative value is the identity. -/
theorem jsAnd_seven (i : ℕ) (h : i < 8) : jsAnd (i : ℤ) 7 = (i : ℤ) := by
  unfold jsAnd
  rw [toInt32_small (i : ℤ) (by omega) (by omega), show toInt32 7 = 7 from by decide]
  rw [show ((i : ℤ)) % 4294967296 = (i : ℤ) from by omega,
    show ((7 : ℤ)) % 4294967296 = 7 from by decide]
  rw [show ((7 : ℤ)).toNat = 7 from rfl, Int.toNat_natCast, nat_land_seven i h]
  simp only [Int.ofNat_eq_natCast]
  rw [toInt32_small _ (by omega) (by omega)]

/-- Claim C1: VINT round trip. For every integer v with 0 <= v <= 2^35 - 2,
writing v with writeEBMLVarIntWidth(v, measureEBMLVarInt(v)) onto a fresh
stream produces a byte sequence that a conformant EBML VINT decoder (the lead
byte's high bits give the width, the remaining bits plus the continuation
bytes give the value) decodes back to exactly v; the emitted width equals the
measured width. -/
theorem vintRoundTrip (v : ℕ) (hv : v ≤ 34359738366) :
    ∃ w s', ArrayBufferDataStream.measureEBMLVarInt v = some w ∧
      ArrayBufferDataStream.writeEBMLVarIntWidth (ArrayBufferDataStream.create 5) v w = some s' ∧
      s'.pos = w ∧ decodeVInt (s'.data.take s'.pos) = some ((v : ℤ), w) := by
  rcases Nat.lt_or_ge v 127 with h1 | h1
  · refine ⟨1, _, ?_, rfl, rfl, ?_⟩
    · unfold ArrayBufferDataStream.measureEBMLVarInt
      rw [if_pos h1]
    · show decodeVInt [toUint8 (jsOr 128 (v : ℤ))] = some ((v : ℤ), 1)
      rw [jsOr_marker 128 (v : ℤ) (Or.inl rfl) (by omega) (by omega),
        toUint8_small _ (by omega) (by omega)]
      rw [show decodeVInt [128 + (v : ℤ)] =
          match vintWidthOfLeadByte (128 + (v : ℤ)) with
          | none => none
          | some w => if ([] : List ℤ).length = w - 1 then
              some (([] : List ℤ).foldl (fun acc x => acc * 256 + x) (128 + (v : ℤ) - 2 ^ (8 - w)), w)
            else none
          from rfl]
      rw [show vintWidthOfLeadByte (128 + (v : ℤ)) = some 1 from by
        unfold vintWidthOfLeadByte; rw [if_pos (by omega)]]
      norm_num
  · rcases Nat.lt_or_ge v 16383 with h2 | h2
    · refine ⟨2, _, ?_, rfl, rfl, ?_⟩
      · unfold ArrayBufferDataStream.measureEBMLVarInt
        rw [if_neg (by omega), if_pos h2]
      · show decodeVInt [toUint8 (jsOr 64 (jsShr (v : ℤ) 8)), toUint8 (v : ℤ)] =
          some ((v : ℤ), 2)
        rw [jsShr_ofNat_small v 8 (by omega)]
        rw [show (2:ℕ) ^ 8 = 256 from by norm_num]
        rw [jsOr_marker 64 ((v / 256 : ℕ) : ℤ) (Or.inr (Or.inl rfl)) (by omega) (by omega),
          toUint8_small _ (by omega) (by omega), stored_byte v]
        rw [show decodeVInt [64 + ((v / 256 : ℕ) : ℤ), ((v % 256 : ℕ) : ℤ)] =
            match vintWidthOfLeadByte (64 + ((v / 256 : ℕ) : ℤ)) with
            | none => none
            | some w => if ([((v % 256 : ℕ) : ℤ)] : List ℤ).length = w - 1 then
                some (([((v % 256 : ℕ) : ℤ)] : List ℤ).foldl (fun acc x => acc * 256 + x)
                  (64 + ((v / 256 : ℕ) : ℤ) - 2 ^ (8 - w)), w)
              else none
            from rfl]
        rw [show vintWidthOfLeadByte (64 + ((v / 256 : ℕ) : ℤ)) = some 2 from by
          unfold vintWidthOfLeadByte; rw [if_neg (by omega), if_pos (by omega)]]
        norm_num
        omega
    · rcases Nat.lt_or_ge v 2097151 with h3 | h3
      · refine ⟨3, _, ?_, rfl, rfl, ?_⟩
        · unfold ArrayBufferDataStream.measureEBMLVarInt
          rw [if_neg (by omega), if_neg (by omega), if_pos h3]
        · show decodeVInt [toUint8 (jsOr 32 (jsShr (v : ℤ) 16)),
            toUint8 (jsShr (v : ℤ) 8), toUint8 (v : ℤ)] = some ((v : ℤ), 3)
          rw [jsShr_ofNat_small v 16 (by omega), stored_jsShr8 v]
          rw [show (2:ℕ) ^ 16 = 65536 from by norm_num]
          rw [jsOr_marker 32 ((v / 65536 : ℕ) : ℤ) (Or.inr (Or.inr (Or.inl rfl))) (by omega)
            (by omega), toUint8_small _ (by omega) (by omega), stored_byte v]
          rw [show decodeVInt [32 + ((v / 65536 : ℕ) : ℤ), ((v / 256 % 256 : ℕ) : ℤ),
              ((v % 256 : ℕ) : ℤ)] =
              match vintWidthOfLeadByte (32 + ((v / 65536 : ℕ) : ℤ)) with
              | none => none
              | some w => if ([((v / 256 % 256 : ℕ) : ℤ), ((v % 256 : ℕ) : ℤ)] : List ℤ).length = w - 1 then
                  some (([((v / 256 % 256 : ℕ) : ℤ), ((v % 256 : ℕ) : ℤ)] : List ℤ).foldl
                    (fun acc x => acc * 256 + x) (32 + ((v / 65536 : ℕ) : ℤ) - 2 ^ (8 - w)), w)
                else none
              from rfl]
          rw [show vintWidthOfLeadByte (32 + ((v / 65536 : ℕ) : ℤ)) = some 3 from by
            unfold vintWidthOfLeadByte; rw [if_neg (by omega), if_neg (by omega), if_pos (by omega)]]
          norm_num
          omega
      · rcases Nat.lt_or_ge v 268435455 with h4 | h4
        · refine ⟨4, _, ?_, rfl, rfl, ?_⟩
          · unfold ArrayBufferDataStream.measureEBMLVarInt
            rw [if_neg (by omega), if_neg (by omega), if_neg (by omega), if_pos h4]
          · show decodeVInt [toUint8 (jsOr 16 (jsShr (v : ℤ) 24)),
              toUint8 (jsShr (v : ℤ) 16), toUint8 (jsShr (v : ℤ) 8), toUint8 (v : ℤ)] =
              some ((v : ℤ), 4)
            rw [jsShr_ofNat_small v 24 (by omega), stored_jsShr16 v, stored_jsShr8 v]
            rw [show (2:ℕ) ^ 24 = 16777216 from by norm_num]
            rw [jsOr_marker 16 ((v / 16777216 : ℕ) : ℤ) (Or.inr (Or.inr (Or.inr (Or.inl rfl))))
              (by omega) (by omega), toUint8_small _ (by omega) (by omega), stored_byte v]
            rw [show decodeVInt [16 + ((v / 16777216 : ℕ) : ℤ), ((v / 65536 % 256 : ℕ) : ℤ),
                ((v / 256 % 256 : ℕ) : ℤ), ((v % 256 : ℕ) : ℤ)] =
                match vintWidthOfLeadByte (16 + ((v / 16777216 : ℕ) : ℤ)) with
                | none => none
                | some w => if ([((v / 65536 % 256 : ℕ) : ℤ), ((v / 256 % 256 : ℕ) : ℤ),
                    ((v % 256 : ℕ) : ℤ)] : List ℤ).length = w - 1 then
                    some (([((v / 65536 % 256 : ℕ) : ℤ), ((v / 256 % 256 : ℕ) : ℤ),
                      ((v % 256 : ℕ) : ℤ)] : List ℤ).foldl
                      (fun acc x => acc * 256 + x) (16 + ((v / 16777216 : ℕ) : ℤ) - 2 ^ (8 - w)), w)
                  else none
                from rfl]
            rw [show vintWidthOfLeadByte (16 + ((v / 16777216 : ℕ) : ℤ)) = some 4 from by
              unfold vintWidthOfLeadByte
              rw [if_neg (by omega), if_neg (by omega), if_neg (by omega), if_pos (by omega)]]
            norm_num
            omega
        · refine ⟨5, _, ?_, rfl, rfl, ?_⟩
          · unfold ArrayBufferDataStream.measureEBMLVarInt
            rw [if_neg (by omega), if_neg (by omega), if_neg (by omega), if_neg (by omega),
              if_pos (by omega)]
          · show decodeVInt [toUint8 (jsOr 8 (jsAnd ((v / 4294967296 : ℕ) : ℤ) 7)),
              toUint8 (jsShr (v : ℤ) 24), toUint8 (jsShr (v : ℤ) 16),
              toUint8 (jsShr (v : ℤ) 8), toUint8 (v : ℤ)] = some ((v : ℤ), 5)
            rw [jsAnd_seven (v / 4294967296) (by omega), stored_jsShr24 v, stored_jsShr16 v,
              stored_jsShr8 v]
            rw [jsOr_marker 8 ((v / 4294967296 : ℕ) : ℤ) (Or.inr (Or.inr (Or.inr (Or.inr rfl))))
              (by omega) (by omega), toUint8_small _ (by omega) (by omega), stored_byte v]
            rw [show decodeVInt [8 + ((v / 4294967296 : ℕ) : ℤ), ((v / 16777216 % 256 : ℕ) : ℤ),
                ((v / 65536 % 256 : ℕ) : ℤ), ((v / 256 % 256 : ℕ) : ℤ), ((v % 256 : ℕ) : ℤ)] =
                match vintWidthOfLeadByte (8 + ((v / 4294967296 : ℕ) : ℤ)) with
                | none => none
                | some w => if ([((v / 16777216 % 256 : ℕ) : ℤ), ((v / 65536 % 256 : ℕ) : ℤ),
                    ((v / 256 % 256 : ℕ) : ℤ), ((v % 256 : ℕ) : ℤ)] : List ℤ).length = w - 1 then
                    some (([((v / 16777216 % 256 : ℕ) : ℤ), ((v / 65536 % 256 : ℕ) : ℤ),
                      ((v / 256 % 256 : ℕ) : ℤ), ((v % 256 : ℕ) : ℤ)] : List ℤ).foldl
                      (fun acc x => acc * 256 + x) (8 + ((v / 4294967296 : ℕ) : ℤ) - 2 ^ (8 - w)), w)
                  else none
                from rfl]
            rw [show vintWidthOfLeadByte (8 + ((v / 4294967296 : ℕ) : ℤ)) = some 5 from by
              unfold vintWidthOfLeadByte
              rw [if_neg (by omega), if_neg (by omega), if_neg (by omega), if_neg (by omega),
                if_pos (by omega)]]
            norm_num
            omega

/-- Witness for vintRoundTrip at the width boundaries named by the claim. -/
theorem vintRoundTrip_witness :
    (∃ w s', ArrayBufferDataStream.measureEBMLVarInt 126 = some w ∧
      ArrayBufferDataStream.writeEBMLVarIntWidth (ArrayBufferDataStream.create 5) 126 w = some s' ∧
      s'.pos = w ∧ decodeVInt (s'.data.take s'.pos) = some (((126 : ℕ) : ℤ), w)) ∧
    (∃ w s', ArrayBufferDataStream.measureEBMLVarInt 127 = some w ∧
      ArrayBufferDataStream.writeEBMLVarIntWidth (ArrayBufferDataStream.create 5) 127 w = some s' ∧
      s'.pos = w ∧ decodeVInt (s'.data.take s'.pos) = some (((127 : ℕ) : ℤ), w)) ∧
    (∃ w s', ArrayBufferDataStream.measureEBMLVarInt 128 = some w ∧
      ArrayBufferDataStream.writeEBMLVarIntWidth (ArrayBufferDataStream.create 5) 128 w = some s' ∧
      s'.pos = w ∧ decodeVInt (s'.data.take s'.pos) = some (((128 : ℕ) : ℤ), w)) ∧
    (∃ w s', ArrayBufferDataStream.measureEBMLVarInt 16382 = some w ∧
      ArrayBufferDataStream.writeEBMLVarIntWidth (ArrayBufferDataStream.create 5) 16382 w = some s' ∧
      s'.pos = w ∧ decodeVInt (s'.data.take s'.pos) = some (((16382 : ℕ) : ℤ), w)) ∧
    (∃ w s', ArrayBufferDataStream.measureEBMLVarInt 16383 = some w ∧
      ArrayBufferDataStream.writeEBMLVarIntWidth (ArrayBufferDataStream.create 5) 16383 w = some s' ∧
      s'.pos = w ∧ decodeVInt (s'.data.take s'.pos) = some (((16383 : ℕ) : ℤ), w)) ∧
    (∃ w s', ArrayBufferDataStream.measureEBMLVarInt 2097150 = some w ∧
      ArrayBufferDataStream.writeEBMLVarIntWidth (ArrayBufferDataStream.create 5) 2097150 w = some s' ∧
      s'.pos = w ∧ decodeVInt (s'.data.take s'.pos) = some (((2097150 : ℕ) : ℤ), w)) ∧
    (∃ w s', ArrayBufferDataStream.measureEBMLVarInt 268435454 = some w ∧
      ArrayBufferDataStream.writeEBMLVarIntWidth (ArrayBufferDataStream.create 5) 268435454 w = some s' ∧
      s'.pos = w ∧ decodeVInt (s'.data.take s'.pos) = some (((268435454 : ℕ) : ℤ), w)) :=
  ⟨vintRoundTrip 126 (by decide), vintRoundTrip 127 (by decide), vintRoundTrip 128 (by decide),
    vintRoundTrip 16382 (by decide), vintRoundTrip 16383 (by decide),
    vintRoundTrip 2097150 (by decide), vintRoundTrip 268435454 (by decide)⟩

/-- Claim C6: measureEBMLVarInt returns the smallest width w in 1..5 whose
usable range 2^(7w) - 2 (the all-ones sentinel being excluded) covers the
value, fails for every value beyond the maximum representable VINT (it returns
none exactly when the value is at least 34359738367 = 2^35 - 1, so the largest
encodable value is 2^35 - 2), and writeEBMLVarIntWidth fails exactly for
explicit widths outside 1..5. -/
theorem measureVarIntMinimal :
    (∀ v w, ArrayBufferDataStream.measureEBMLVarInt v = some w →
      1 ≤ w ∧ w ≤ 5 ∧ v ≤ 2 ^ (7 * w) - 2 ∧ ∀ w', 1 ≤ w' → w' < w → 2 ^ (7 * w') - 2 < v) ∧
    (∀ v, ArrayBufferDataStream.measureEBMLVarInt v = none ↔ 34359738367 ≤ v) ∧
    (∀ s i w, ArrayBufferDataStream.writeEBMLVarIntWidth s i w = none ↔ (w = 0 ∨ 6 ≤ w)) := by
  refine ⟨?_, ?_, ?_⟩
  · intro v w h
    unfold ArrayBufferDataStream.measureEBMLVarInt at h
    split_ifs at h with h1 h2 h3 h4 h5
    · cases h
      exact ⟨by omega, by omega, show v ≤ 126 by omega, fun w' hw1 hw2 => by omega⟩
    · cases h
      refine ⟨by omega, by omega, show v ≤ 16382 by omega, ?_⟩
      intro w' hw1 hw2
      interval_cases w'
      show 126 < v
      omega
    · cases h
      refine ⟨by omega, by omega, show v ≤ 2097150 by omega, ?_⟩
      intro w' hw1 hw2
      interval_cases w' <;> [show 126 < v; show 16382 < v] <;> omega
    · cases h
      refine ⟨by omega, by omega, show v ≤ 268435454 by omega, ?_⟩
      intro w' hw1 hw2
      interval_cases w' <;> [show 126 < v; show 16382 < v; show 2097150 < v] <;> omega
    · cases h
      refine ⟨by omega, by omega, show v ≤ 34359738366 by omega, ?_⟩
      intro w' hw1 hw2
      interval_cases w' <;>
        [show 126 < v; show 16382 < v; show 2097150 < v; show 268435454 < v] <;> omega
  · intro v
    unfold ArrayBufferDataStream.measureEBMLVarInt
    split_ifs <;> simp <;> omega
  · intro s i w
    rcases w with _|(_|(_|(_|(_|(_|w)))))
    · simp [ArrayBufferDataStream.writeEBMLVarIntWidth]
    · simp [ArrayBufferDataStream.writeEBMLVarIntWidth]
    · simp [ArrayBufferDataStream.writeEBMLVarIntWidth]
    · simp [ArrayBufferDataStream.writeEBMLVarIntWidth]
    · simp [ArrayBufferDataStream.writeEBMLVarIntWidth]
    · simp [ArrayBufferDataStream.writeEBMLVarIntWidth]
    · simp [ArrayBufferDataStream.writeEBMLVarIntWidth]

/-- Witness for measureVarIntMinimal: width 2 is minimal for 127, the value
34359738367 is rejected, and the explicit width 6 is rejected. -/
theorem measureVarIntMinimal_witness :
    (1 ≤ 2 ∧ 2 ≤ 5 ∧ 127 ≤ 2 ^ (7 * 2) - 2) ∧ (2 ^ (7 * 1) - 2 < 127) ∧
    ArrayBufferDataStream.measureEBMLVarInt 34359738367 = none ∧
    ArrayBufferDataStream.writeEBMLVarIntWidth (ArrayBufferDataStream.create 5) 3 6 = none := by
  have h := measureVarIntMinimal
  have h127 := h.1 127 2 (by decide)
  exact ⟨⟨h127.1, h127.2.1, h127.2.2.1⟩, h127.2.2.2 1 (by decide) (by decide),
    (h.2.1 34359738367).mpr (by decide),
    (h.2.2 (ArrayBufferDataStream.create 5) 3 6).mpr (by decide)⟩

/-- Claim C9: getAsDataArray returns exactly the bytes from offset 0 up to the
cursor whenever the cursor is at or within the buffer's capacity, and fails
with a RangeError (none) for every cursor strictly beyond the capacity. -/
theorem getAsDataArrayRange (s : ArrayBufferDataStream) :
    (s.pos ≤ s.data.length → s.getAsDataArray = some (s.data.take s.pos)) ∧
    (s.data.length < s.pos → s.getAsDataArray = none) := by
  constructor
  · intro h
    unfold ArrayBufferDataStream.getAsDataArray
    rcases Nat.lt_or_ge s.pos s.data.length with h1 | h1
    · rw [if_pos h1]
    · have h2 : s.pos = s.data.length := by omega
      rw [if_neg (by omega), if_pos h2, h2, List.take_length]
  · intro h
    unfold ArrayBufferDataStream.getAsDataArray
    rw [if_neg (by omega), if_neg (by omega)]

/-- Witness for getAsDataArrayRange: a cursor inside, at, and beyond the
capacity of a concrete 3-byte buffer. -/
theorem getAsDataArrayRange_witness :
    ArrayBufferDataStream.getAsDataArray ⟨[1, 2, 3], 2⟩ = some [1, 2] ∧
    ArrayBufferDataStream.getAsDataArray ⟨[1, 2, 3], 3⟩ = some [1, 2, 3] ∧
    ArrayBufferDataStream.getAsDataArray ⟨[1, 2, 3], 4⟩ = none := by
  refine ⟨?_, ?_, ?_⟩
  · have h := (getAsDataArrayRange ⟨[1, 2, 3], 2⟩).1 (by decide)
    simpa using h
  · have h := (getAsDataArrayRange ⟨[1, 2, 3], 3⟩).1 (by decide)
    simpa using h
  · exact (getAsDataArrayRange ⟨[1, 2, 3], 4⟩).2 (by decide)

/-! ### Effects of the stream primitives -/

@[simp] theorem writeByte_pos (s : ArrayBufferDataStream) (b : ℤ) :
    (s.writeByte b).pos = s.pos + 1 := rfl

@[simp] theorem writeByte_data (s : ArrayBufferDataStream) (b : ℤ) :
    (s.writeByte b).data = s.data.set s.pos (toUint8 b) := rfl

@[simp] theorem writeByte_length (s : ArrayBufferDataStream) (b : ℤ) :
    (s.writeByte b).data.length = s.data.length := by
  simp [ArrayBufferDataStream.writeByte]

@[simp] theorem writeU8_eq (s : ArrayBufferDataStream) (b : ℤ) :
    s.writeU8 b = s.writeByte b := rfl

@[simp] theorem seek_pos (s : ArrayBufferDataStream) (p : ℕ) : (s.seek p).pos = p := rfl

@[simp] theorem seek_data (s : ArrayBufferDataStream) (p : ℕ) : (s.seek p).data = s.data := rfl

@[simp] theorem writeU16BE_pos (s : ArrayBufferDataStream) (u : ℤ) :
    (s.writeU16BE u).pos = s.pos + 2 := rfl

@[simp] theorem writeU16BE_length (s : ArrayBufferDataStream) (u : ℤ) :
    (s.writeU16BE u).data.length = s.data.length := by
  simp [ArrayBufferDataStream.writeU16BE]

theorem writeBytes_pos (arr : List ℤ) : ∀ s : ArrayBufferDataStream,
    (s.writeBytes arr).pos = s.pos + arr.length := by
  induction arr with
  | nil => intro s; simp [ArrayBufferDataStream.writeBytes]
  | cons b bs ih =>
    intro s
    show ((s.writeByte b).writeBytes bs).pos = s.pos + (b :: bs).length
    rw [ih]
    simp
    omega

theorem writeBytes_length (arr : List ℤ) : ∀ s : ArrayBufferDataStream,
    (s.writeBytes arr).data.length = s.data.length := by
  induction arr with
  | nil => intro s; simp [ArrayBufferDataStream.writeBytes]
  | cons b bs ih =>
    intro s
    show ((s.writeByte b).writeBytes bs).data.length = s.data.length
    rw [ih]
    simp

theorem writeString_eq (s : ArrayBufferDataStream) (cs : List ℤ) :
    s.writeString cs = s.writeBytes cs := rfl

theorem writeUnsignedIntBE_pos (s : ArrayBufferDataStream) (u : ℤ) (width : ℕ)
    (s' : ArrayBufferDataStream) (h : ArrayBufferDataStream.writeUnsignedIntBE s u width = some s') :
    s'.pos = s.pos + width ∧ s'.data.length = s.data.length ∧ 1 ≤ width ∧ width ≤ 5 := by
  rcases width with _|(_|(_|(_|(_|(_|w))))) <;>
    simp [ArrayBufferDataStream.writeUnsignedIntBE] at h <;> subst h <;> simp

theorem writeEBMLVarIntWidth_pos (s : ArrayBufferDataStream) (i : ℕ) (width : ℕ)
    (s' : ArrayBufferDataStream)
    (h : ArrayBufferDataStream.writeEBMLVarIntWidth s i width = some s') :
    s'.pos = s.pos + width ∧ s'.data.length = s.data.length := by
  rcases width with _|(_|(_|(_|(_|(_|w))))) <;>
    simp [ArrayBufferDataStream.writeEBMLVarIntWidth] at h <;> subst h <;> simp

theorem writeEBMLVarInt_pos (s : ArrayBufferDataStream) (i : ℕ)
    (s' : ArrayBufferDataStream) (h : ArrayBufferDataStream.writeEBMLVarInt s i = some s') :
    s'.pos = s.pos + (ArrayBufferDataStream.measureEBMLVarInt i).getD 0 ∧
      s'.data.length = s.data.length := by
  unfold ArrayBufferDataStream.writeEBMLVarInt at h
  rcases hm : ArrayBufferDataStream.measureEBMLVarInt i with _ | w
  · rw [hm] at h
    exact absurd h (by simp)
  · rw [hm] at h
    have := writeEBMLVarIntWidth_pos s i w s' h
    simp [hm, this.1, this.2]

/-! ### The EBML element tree writer -/

/-- EBML node model mirroring the value forms accepted by writeEBML: a bare
string or Uint8Array passed through verbatim, or an element object carrying a
numeric id and one kind of data payload (unsigned integer with an optional
explicit size override, float32, float64, string, byte buffer, or a list of
child elements with either an unbounded or a deferred 4-byte size). Float
payloads are carried as their 4 or 8 big-endian IEEE754 bytes, since the bit
level float encoding itself is outside this embedding. Sibling arrays are
written by recursing over a list of nodes, as the source does for arrays. -/
inductive Ebml : Type where
  | rawStr (cs : List ℤ)
  | rawBytes (bs : List ℤ)
  | uintElem (id : ℕ) (size : Option ℕ) (val : ℤ)
  | f32Elem (id : ℕ) (p0 p1 p2 p3 : ℤ)
  | f64Elem (id : ℕ) (p0 p1 p2 p3 p4 p5 p6 p7 : ℤ)
  | strElem (id : ℕ) (cs : List ℤ)
  | bytesElem (id : ℕ) (bs : List ℤ)
  | containerElem (id : ℕ) (unboundedSize : Bool) (children : List Ebml)

/-- Size field chosen for a numeric element: the source uses ebml.size unless
it is absent or zero (JS falsiness of !ebml.size), in which case it measures
the integer. -/
def chosenUintSize (size : Option ℕ) (val : ℤ) : ℕ :=
  match size with
  | none => ArrayBufferDataStream.measureUnsignedInt val
  | some n => if n = 0 then ArrayBufferDataStream.measureUnsignedInt val else n

mutual

/-- writeEBML(buffer, bufferFileOffset, ebml) from the source. Strings and
Uint8Arrays are copied verbatim; an element writes its id (at the measured
width), then its size field, then its payload. A container with size -1
(unbounded) writes the reserved 0xFF size byte and its children in place; any
other container writes a 4-byte size placeholder, its children, then seeks
back and overwrites the placeholder with (dataEnd - dataBegin) encoded as a
4-byte VINT before seeking forward to dataEnd. A zero element id falls
through to the Bad EBML datatype branch of the source and is modeled as none,
as are the error results of the inner write calls. The offset bookkeeping
fields (ebml.offset, ebml.dataOffset) mutate the input object in the source
and are not part of the byte stream, so they carry no effect here;
bufferFileOffset is kept as a parameter to mirror the signature. -/
def writeEBML (s : ArrayBufferDataStream) (bufferFileOffset : ℕ) :
    Ebml → Option ArrayBufferDataStream
  | .rawStr cs => some (s.writeString cs)
  | .rawBytes bs => some (s.writeBytes bs)
  | .uintElem id size val =>
    if id = 0 then none else
      (ArrayBufferDataStream.writeUnsignedIntBE s (id : ℤ)
        (ArrayBufferDataStream.measureUnsignedInt (id : ℤ))).bind fun s1 =>
        (s1.writeEBMLVarInt (chosenUintSize size val)).bind fun s2 =>
          ArrayBufferDataStream.writeUnsignedIntBE s2 val (chosenUintSize size val)
  | .f32Elem id p0 p1 p2 p3 =>
    if id = 0 then none else
      (ArrayBufferDataStream.writeUnsignedIntBE s (id : ℤ)
        (ArrayBufferDataStream.measureUnsignedInt (id : ℤ))).bind fun s1 =>
        (s1.writeEBMLVarInt 4).bind fun s2 =>
          some (s2.writeBytes [p0, p1, p2, p3])
  | .f64Elem id p0 p1 p2 p3 p4 p5 p6 p7 =>
    if id = 0 then none else
      (ArrayBufferDataStream.writeUnsignedIntBE s (id : ℤ)
        (ArrayBufferDataStream.measureUnsignedInt (id : ℤ))).bind fun s1 =>
        (s1.writeEBMLVarInt 8).bind fun s2 =>
          some (s2.writeBytes [p0, p1, p2, p3, p4, p5, p6, p7])
  | .strElem id cs =>
    if id = 0 then none else
      (ArrayBufferDataStream.writeUnsignedIntBE s (id : ℤ)
        (ArrayBufferDataStream.measureUnsignedInt (id : ℤ))).bind fun s1 =>
        (s1.writeEBMLVarInt cs.length).bind fun s2 =>
          some (s2.writeString cs)
  | .bytesElem id bs =>
    if id = 0 then none else
      (ArrayBufferDataStream.writeUnsignedIntBE s (id : ℤ)
        (ArrayBufferDataStream.measureUnsignedInt (id : ℤ))).bind fun s1 =>
        (s1.writeEBMLVarInt bs.length).bind fun s2 =>
          some (s2.writeBytes bs)
  | .containerElem id ub children =>
    if id = 0 then none else
      (ArrayBufferDataStream.writeUnsignedIntBE s (id : ℤ)
        (ArrayBufferDataStream.measureUnsignedInt (id : ℤ))).bind fun s1 =>
        if ub then
          writeEBMLList (s1.writeByte 255) bufferFileOffset children
        else
          let sizePos := s1.pos
          let s2 := s1.writeBytes [0, 0, 0, 0]
          (writeEBMLList s2 bufferFileOffset children).bind fun s3 =>
            let dataEnd := s3.pos
            (ArrayBufferDataStream.writeEBMLVarIntWidth (s3.seek sizePos)
              (dataEnd - s2.pos) 4).bind fun s4 =>
              some (s4.seek dataEnd)
termination_by structural e => e

/-- Sibling lists (the Array.isArray branch of writeEBML): write each node in
order. -/
def writeEBMLList (s : ArrayBufferDataStream) (bufferFileOffset : ℕ) :
    List Ebml → Option ArrayBufferDataStream
  | [] => some s
  | e :: es => (writeEBML s bufferFileOffset e).bind fun s' =>
      writeEBMLList s' bufferFileOffset es
termination_by structural es => es

end

@[simp] theorem create_pos (n : ℕ) : (ArrayBufferDataStream.create n).pos = 0 := rfl

@[simp] theorem create_length (n : ℕ) : (ArrayBufferDataStream.create n).data.length = n := by
  simp [ArrayBufferDataStream.create]

/-! ### SimpleBlock creation -/

/-- The Frame record consumed by createSimpleBlockForframe: raw frame bytes, a
track number, a cluster-relative timecode, and whether frame.type is the
string "key" (carried as a Bool). -/
structure Frame where
  frame : List ℤ
  trackNumber : ℕ
  timecode : ℤ
  isKey : Bool
deriving DecidableEq

/-- createSimpleBlockForframe(frame) from the source: a fresh 4-byte stream
(1 + 2 + 1), the track number validation (throw, modeled none, unless
0 < trackNumber < 127), then the track number as a VINT, the timecode as a
16-bit big-endian value, and a flags byte whose bit 7 ((key ? 1 : 0) << 7) is
the keyframe flag; the SimpleBlock element is the id 0xA3 = 163 with the
header bytes and the frame bytes as its data array. -/
def createSimpleBlockForframe (f : Frame) : Option Ebml :=
  let bufferStream := ArrayBufferDataStream.create (1 + 2 + 1)
  if ¬(f.trackNumber > 0 ∧ f.trackNumber < 127) then none
  else
    (bufferStream.writeEBMLVarInt f.trackNumber).bind fun s1 =>
      let s2 := s1.writeU16BE f.timecode
      let s3 := s2.writeByte (if f.isKey then (128 : ℤ) else 0)
      s3.getAsDataArray.bind fun header =>
        some (Ebml.containerElem 163 false [Ebml.rawBytes header, Ebml.rawBytes f.frame])

/-- Claim C7: createSimpleBlockForframe fails with a ValidationError exactly
when the frame's track number lies outside [1, 126]; inside that range it
returns a SimpleBlock without raising any error. -/
theorem simpleBlockTrackValidation (f : Frame) :
    (createSimpleBlockForframe f).isSome = true ↔ (1 ≤ f.trackNumber ∧ f.trackNumber ≤ 126) := by
  unfold createSimpleBlockForframe
  by_cases hv : 1 ≤ f.trackNumber ∧ f.trackNumber ≤ 126
  · rw [if_neg (not_not_intro ⟨by omega, by omega⟩)]
    have hm : ArrayBufferDataStream.writeEBMLVarInt (ArrayBufferDataStream.create (1 + 2 + 1))
        f.trackNumber
        = some ((ArrayBufferDataStream.create (1 + 2 + 1)).writeU8 (jsOr 128 (f.trackNumber : ℤ))) := by
      unfold ArrayBufferDataStream.writeEBMLVarInt
      rw [show ArrayBufferDataStream.measureEBMLVarInt f.trackNumber = some 1 from by
        unfold ArrayBufferDataStream.measureEBMLVarInt; rw [if_pos (by omega)]]
      rfl
    rw [hm]
    simp [ArrayBufferDataStream.getAsDataArray, hv]
  · rw [if_pos (by omega)]
    simp only [Option.isSome_none, Bool.false_eq_true, false_iff]
    omega

/-- Witness for simpleBlockTrackValidation: track numbers 0 and 127 fail,
1 and 126 succeed, on a concrete one-byte frame. -/
theorem simpleBlockTrackValidation_witness :
    (createSimpleBlockForframe ⟨[5], 0, 0, false⟩).isSome = false ∧
    (createSimpleBlockForframe ⟨[5], 1, 0, false⟩).isSome = true ∧
    (createSimpleBlockForframe ⟨[5], 126, 0, true⟩).isSome = true ∧
    (createSimpleBlockForframe ⟨[5], 127, 0, false⟩).isSome = false := by
  refine ⟨?_, ?_, ?_, ?_⟩
  · have h := simpleBlockTrackValidation ⟨[5], 0, 0, false⟩
    rcases hb : (createSimpleBlockForframe ⟨[5], 0, 0, false⟩).isSome with _ | _
    · rfl
    · rw [hb] at h
      exact absurd (h.mp rfl) (by decide)
  · exact (simpleBlockTrackValidation ⟨[5], 1, 0, false⟩).mpr ⟨by decide, by decide⟩
  · exact (simpleBlockTrackValidation ⟨[5], 126, 0, true⟩).mpr ⟨by decide, by decide⟩
  · have h := simpleBlockTrackValidation ⟨[5], 127, 0, false⟩
    rcases hb : (createSimpleBlockForframe ⟨[5], 127, 0, false⟩).isSome with _ | _
    · rfl
    · rw [hb] at h
      exact absurd (h.mp rfl) (by decide)

/-- Joint invariant of the element writer: a successful write never changes
the buffer's capacity and never leaves the cursor before its starting
position. -/
theorem writeEBML_effects :
    (∀ (s : ArrayBufferDataStream) (off : ℕ) (e : Ebml) (s' : ArrayBufferDataStream),
      writeEBML s off e = some s' → s'.data.length = s.data.length ∧ s.pos ≤ s'.pos) ∧
    (∀ (s : ArrayBufferDataStream) (off : ℕ) (es : List Ebml) (s' : ArrayBufferDataStream),
      writeEBMLList s off es = some s' → s'.data.length = s.data.length ∧ s.pos ≤ s'.pos) := by
  have H := writeEBML.mutual_induct
    (fun s off e => ∀ s', writeEBML s off e = some s' →
      s'.data.length = s.data.length ∧ s.pos ≤ s'.pos)
    (fun s off es => ∀ s', writeEBMLList s off es = some s' →
      s'.data.length = s.data.length ∧ s.pos ≤ s'.pos)
  refine (fun h => ⟨h.1, h.2⟩) (H ?_ ?_ ?_ ?_ ?_ ?_ ?_ ?_ ?_ ?_ ?_ ?_ ?_ ?_ ?_ ?_)
  · intro s off cs s' h
    unfold writeEBML at h
    cases h
    rw [writeString_eq, writeBytes_length, writeBytes_pos]
    omega
  · intro s off bs s' h
    unfold writeEBML at h
    cases h
    rw [writeBytes_length, writeBytes_pos]
    omega
  · intro s off size val s' h
    unfold writeEBML at h
    simp at h
  · intro s off id size val hid s' h
    unfold writeEBML at h
    rw [if_neg hid] at h
    rcases h1 : ArrayBufferDataStream.writeUnsignedIntBE s (id : ℤ)
        (ArrayBufferDataStream.measureUnsignedInt (id : ℤ)) with _ | s1
    · rw [h1] at h; exact absurd h (by simp)
    rw [h1] at h
    simp only [Option.some_bind] at h
    rcases h2 : s1.writeEBMLVarInt (chosenUintSize size val) with _ | s2
    · rw [h2] at h; exact absurd h (by simp)
    rw [h2] at h
    simp only [Option.some_bind] at h
    have e1 := writeUnsignedIntBE_pos _ _ _ _ h1
    have e2 := writeEBMLVarInt_pos _ _ _ h2
    have e3 := writeUnsignedIntBE_pos _ _ _ _ h
    refine ⟨by omega, by omega⟩
  · intro s off p0 p1 p2 p3 s' h
    unfold writeEBML at h
    simp at h
  · intro s off id p0 p1 p2 p3 hid s' h
    unfold writeEBML at h
    rw [if_neg hid] at h
    rcases h1 : ArrayBufferDataStream.writeUnsignedIntBE s (id : ℤ)
        (ArrayBufferDataStream.measureUnsignedInt (id : ℤ)) with _ | s1
    · rw [h1] at h; exact absurd h (by simp)
    rw [h1] at h
    simp only [Option.some_bind] at h
    rcases h2 : s1.writeEBMLVarInt 4 with _ | s2
    · rw [h2] at h; exact absurd h (by simp)
    rw [h2] at h
    simp only [Option.some_bind] at h
    cases h
    have e1 := writeUnsignedIntBE_pos _ _ _ _ h1
    have e2 := writeEBMLVarInt_pos _ _ _ h2
    rw [writeBytes_length, writeBytes_pos]
    refine ⟨by omega, by omega⟩
  · intro s off p0 p1 p2 p3 p4 p5 p6 p7 s' h
    unfold writeEBML at h
    simp at h
  · intro s off id p0 p1 p2 p3 p4 p5 p6 p7 hid s' h
    unfold writeEBML at h
    rw [if_neg hid] at h
    rcases h1 : ArrayBufferDataStream.writeUnsignedIntBE s (id : ℤ)
        (ArrayBufferDataStream.measureUnsignedInt (id : ℤ)) with _ | s1
    · rw [h1] at h; exact absurd h (by simp)
    rw [h1] at h
    simp only [Option.some_bind] at h
    rcases h2 : s1.writeEBMLVarInt 8 with _ | s2
    · rw [h2] at h; exact absurd h (by simp)
    rw [h2] at h
    simp only [Option.some_bind] at h
    cases h
    have e1 := writeUnsignedIntBE_pos _ _ _ _ h1
    have e2 := writeEBMLVarInt_pos _ _ _ h2
    rw [writeBytes_length, writeBytes_pos]
    refine ⟨by omega, by omega⟩
  · intro s off cs s' h
    unfold writeEBML at h
    simp at h
  · intro s off id cs hid s' h
    unfold writeEBML at h
    rw [if_neg hid] at h
    rcases h1 : ArrayBufferDataStream.writeUnsignedIntBE s (id : ℤ)
        (ArrayBufferDataStream.measureUnsignedInt (id : ℤ)) with _ | s1
    · rw [h1] at h; exact absurd h (by simp)
    rw [h1] at h
    simp only [Option.some_bind] at h
    rcases h2 : s1.writeEBMLVarInt cs.length with _ | s2
    · rw [h2] at h; exact absurd h (by simp)
    rw [h2] at h
    simp only [Option.some_bind] at h
    cases h
    have e1 := writeUnsignedIntBE_pos _ _ _ _ h1
    have e2 := writeEBMLVarInt_pos _ _ _ h2
    rw [writeString_eq, writeBytes_length, writeBytes_pos]
    refine ⟨by omega, by omega⟩
  · intro s off bs s' h
    unfold writeEBML at h
    simp at h
  · intro s off id bs hid s' h
    unfold writeEBML at h
    rw [if_neg hid] at h
    rcases h1 : ArrayBufferDataStream.writeUnsignedIntBE s (id : ℤ)
        (ArrayBufferDataStream.measureUnsignedInt (id : ℤ)) with _ | s1
    · rw [h1] at h; exact absurd h (by simp)
    rw [h1] at h
    simp only [Option.some_bind] at h
    rcases h2 : s1.writeEBMLVarInt bs.length with _ | s2
    · rw [h2] at h; exact absurd h (by simp)
    rw [h2] at h
    simp only [Option.some_bind] at h
    cases h
    have e1 := writeUnsignedIntBE_pos _ _ _ _ h1
    have e2 := writeEBMLVarInt_pos _ _ _ h2
    rw [writeBytes_length, writeBytes_pos]
    refine ⟨by omega, by omega⟩
  · intro s off ub children s' h
    unfold writeEBML at h
    simp at h
  · intro s off id ub children hid ih1 ih2 s' h
    unfold writeEBML at h
    rw [if_neg hid] at h
    rcases h1 : ArrayBufferDataStream.writeUnsignedIntBE s (id : ℤ)
        (ArrayBufferDataStream.measureUnsignedInt (id : ℤ)) with _ | s1
    · rw [h1] at h; exact absurd h (by simp)
    rw [h1] at h
    simp only [Option.some_bind] at h
    have e1 := writeUnsignedIntBE_pos _ _ _ _ h1
    rcases ub with _ | _
    · rw [if_neg (by simp)] at h
      rcases h3 : writeEBMLList (s1.writeBytes [0, 0, 0, 0]) off children with _ | s3
      · rw [h3] at h; exact absurd h (by simp)
      rw [h3] at h
      simp only [Option.some_bind] at h
      have e3 := ih2 s1 s3 h3
      rw [writeBytes_length, writeBytes_pos] at e3
      rcases h4 : ArrayBufferDataStream.writeEBMLVarIntWidth (s3.seek s1.pos)
          (s3.pos - (s1.writeBytes [0, 0, 0, 0]).pos) 4 with _ | s4
      · rw [h4] at h; exact absurd h (by simp)
      rw [h4] at h
      simp only [Option.some_bind] at h
      cases h
      have e4 := writeEBMLVarIntWidth_pos _ _ _ _ h4
      simp only [seek_pos, seek_data] at e4
      simp only [List.length_cons, List.length_nil] at e3
      constructor
      · simp only [seek_data]
        omega
      · simp only [seek_pos]
        omega
    · rw [if_pos rfl] at h
      have e2 := ih1 s1 s' h
      simp only [writeByte_length, writeByte_pos] at e2
      refine ⟨by omega, by omega⟩
  · intro s off s' h
    unfold writeEBMLList at h
    cases h
    exact ⟨rfl, le_refl _⟩
  · intro s off e es ih1 ih2 s' h
    unfold writeEBMLList at h
    rcases h1 : writeEBML s off e with _ | s1
    · rw [h1] at h; exact absurd h (by simp)
    rw [h1] at h
    simp only [Option.some_bind] at h
    have e1 := ih1 s1 h1
    have e2 := ih2 s1 s' h
    refine ⟨by omega, by omega⟩

/-- The four bytes stored at offset p of a buffer. -/
def read4 (l : List ℤ) (p : ℕ) : List ℤ :=
  [l.getD p 0, l.getD (p + 1) 0, l.getD (p + 2) 0, l.getD (p + 3) 0]

theorem getD_set_self (l : List ℤ) (i : ℕ) (x : ℤ) (h : i < l.length) :
    (l.set i x).getD i 0 = x := by
  simp [List.getD, List.getElem?_set, h]

theorem getD_set_other (l : List ℤ) (i j : ℕ) (x : ℤ) (h : i ≠ j) :
    (l.set i x).getD j 0 = l.getD j 0 := by
  simp [List.getD, List.getElem?_set, h]

/-- Reading back a 4-byte VINT patch: writing the size n as a width-4 VINT at
cursor p (with the four patched cells inside the capacity) stores four bytes
that decode to exactly n whenever n is below 2^28. -/
theorem vint4_patch_read (t : ArrayBufferDataStream) (n : ℕ) (t' : ArrayBufferDataStream)
    (hcap : t.pos + 4 ≤ t.data.length) (hn : n < 268435456)
    (h : ArrayBufferDataStream.writeEBMLVarIntWidth t n 4 = some t') :
    decodeVInt (read4 t'.data t.pos) = some ((n : ℤ), 4) := by
  unfold ArrayBufferDataStream.writeEBMLVarIntWidth at h
  simp only [writeU8_eq] at h
  cases h
  have hb0 : toUint8 (jsOr 16 (jsShr (n : ℤ) 24)) = 16 + ((n / 16777216 : ℕ) : ℤ) := by
    rw [jsShr_ofNat_small n 24 (by omega), show (2:ℕ) ^ 24 = 16777216 from by norm_num,
      jsOr_marker 16 ((n / 16777216 : ℕ) : ℤ) (Or.inr (Or.inr (Or.inr (Or.inl rfl))))
        (by omega) (by omega), toUint8_small _ (by omega) (by omega)]
  have hread : read4 ((((t.data.set t.pos (toUint8 (jsOr 16 (jsShr (n : ℤ) 24)))).set (t.pos + 1)
      (toUint8 (jsShr (n : ℤ) 16))).set (t.pos + 1 + 1) (toUint8 (jsShr (n : ℤ) 8))).set
      (t.pos + 1 + 1 + 1) (toUint8 (n : ℤ))) t.pos =
      [16 + ((n / 16777216 : ℕ) : ℤ), ((n / 65536 % 256 : ℕ) : ℤ),
        ((n / 256 % 256 : ℕ) : ℤ), ((n % 256 : ℕ) : ℤ)] := by
    unfold read4
    rw [getD_set_other _ _ _ _ (by omega), getD_set_other _ _ _ _ (by omega),
      getD_set_other _ _ _ _ (by omega), getD_set_self _ _ _ (by omega)]
    rw [getD_set_other _ _ _ _ (by omega), getD_set_other _ _ _ _ (by omega),
      getD_set_self _ _ _ (by simp only [List.length_set]; omega)]
    rw [getD_set_other _ _ _ _ (by omega),
      getD_set_self _ _ _ (by simp only [List.length_set]; omega)]
    rw [getD_set_self _ _ _ (by simp only [List.length_set]; omega)]
    rw [hb0, stored_jsShr16 n, stored_jsShr8 n, stored_byte n]
  simp only [writeByte_data, writeByte_pos]
  rw [hread]
  rw [show decodeVInt [16 + ((n / 16777216 : ℕ) : ℤ), ((n / 65536 % 256 : ℕ) : ℤ),
      ((n / 256 % 256 : ℕ) : ℤ), ((n % 256 : ℕ) : ℤ)] =
      match vintWidthOfLeadByte (16 + ((n / 16777216 : ℕ) : ℤ)) with
      | none => none
      | some w => if ([((n / 65536 % 256 : ℕ) : ℤ), ((n / 256 % 256 : ℕ) : ℤ),
          ((n % 256 : ℕ) : ℤ)] : List ℤ).length = w - 1 then
          some (([((n / 65536 % 256 : ℕ) : ℤ), ((n / 256 % 256 : ℕ) : ℤ),
            ((n % 256 : ℕ) : ℤ)] : List ℤ).foldl (fun acc x => acc * 256 + x)
            (16 + ((n / 16777216 : ℕ) : ℤ) - 2 ^ (8 - w)), w)
        else none
      from rfl]
  rw [show vintWidthOfLeadByte (16 + ((n / 16777216 : ℕ) : ℤ)) = some 4 from by
    unfold vintWidthOfLeadByte
    rw [if_neg (by omega), if_neg (by omega), if_neg (by omega), if_pos (by omega)]]
  norm_num
  omega

/-- Claim C3 (amended): for every container element whose size is not declared
unbounded, writeEBML writes the element id, then a 4-byte size placeholder,
then all children in order; provided the placeholder lies within the stream's
capacity and the serialized children occupy fewer than 2^28 bytes, the 4
bytes finally stored at the placeholder offset, decoded as an EBML VINT,
equal exactly the number of bytes occupied by the serialized children (end
position minus data-start position), and after the patch the write cursor
rests at the end of the children's data. -/
theorem sizePatchCorrect (s : ArrayBufferDataStream) (off id : ℕ) (children : List Ebml)
    (s' : ArrayBufferDataStream)
    (h : writeEBML s off (Ebml.containerElem id false children) = some s')
    (hcap : s.pos + ArrayBufferDataStream.measureUnsignedInt (id : ℤ) + 4 ≤ s.data.length)
    (hsize : s'.pos - (s.pos + ArrayBufferDataStream.measureUnsignedInt (id : ℤ) + 4)
      < 268435456) :
    id ≠ 0 ∧
    ∃ s1 s3,
      ArrayBufferDataStream.writeUnsignedIntBE s (id : ℤ)
        (ArrayBufferDataStream.measureUnsignedInt (id : ℤ)) = some s1 ∧
      s1.pos = s.pos + ArrayBufferDataStream.measureUnsignedInt (id : ℤ) ∧
      writeEBMLList (s1.writeBytes [0, 0, 0, 0]) off children = some s3 ∧
      s'.pos = s3.pos ∧
      decodeVInt (read4 s'.data s1.pos) = some (((s'.pos - (s1.pos + 4) : ℕ) : ℤ), 4) := by
  unfold writeEBML at h
  by_cases hid : id = 0
  · rw [if_pos hid] at h
    exact absurd h (by simp)
  rw [if_neg hid] at h
  rcases h1 : ArrayBufferDataStream.writeUnsignedIntBE s (id : ℤ)
      (ArrayBufferDataStream.measureUnsignedInt (id : ℤ)) with _ | s1
  · rw [h1] at h; exact absurd h (by simp)
  rw [h1] at h
  simp only [Option.some_bind] at h
  rw [if_neg (by simp)] at h
  rcases h3 : writeEBMLList (s1.writeBytes [0, 0, 0, 0]) off children with _ | s3
  · rw [h3] at h; exact absurd h (by simp)
  rw [h3] at h
  simp only [Option.some_bind] at h
  have hwb : (s1.writeBytes [0, 0, 0, 0]).pos = s1.pos + 4 := by
    rw [writeBytes_pos]
    simp
  rw [hwb] at h
  rcases h4 : ArrayBufferDataStream.writeEBMLVarIntWidth (s3.seek s1.pos)
      (s3.pos - (s1.pos + 4)) 4 with _ | s4
  · rw [h4] at h; exact absurd h (by simp)
  rw [h4] at h
  simp only [Option.some_bind] at h
  cases h
  simp only [seek_pos] at hsize
  have e1 := writeUnsignedIntBE_pos _ _ _ _ h1
  have e3 := writeEBML_effects.2 _ _ _ _ h3
  rw [writeBytes_length, hwb] at e3
  have hdec := vint4_patch_read (s3.seek s1.pos) (s3.pos - (s1.pos + 4)) s4
    (by simp only [seek_pos, seek_data]; omega) (by omega) h4
  refine ⟨hid, s1, s3, ?_, ?_, ?_, ?_, ?_⟩
  · exact rfl
  · omega
  · exact h3
  · simp
  · simp only [seek_pos, seek_data] at hdec ⊢
    exact hdec

/-- Stream with enough capacity for the overflowing container below. -/
def sizePatchBigStream : ArrayBufferDataStream := ArrayBufferDataStream.create 268435472

/-- A determinate-size container whose single child occupies 2^28 = 268435456
bytes, one past what a 4-byte VINT size field can carry. -/
def sizePatchBigElem : Ebml :=
  Ebml.containerElem 163 false [Ebml.rawBytes (List.replicate 268435456 0)]

theorem writeEBMLList_single_raw (t : ArrayBufferDataStream) (off : ℕ) (bs : List ℤ) :
    writeEBMLList t off [Ebml.rawBytes bs] = some (t.writeBytes bs) := by
  simp [writeEBMLList, writeEBML]

/-- The stream produced by the final size-patch step of a determinate-size
container: seek back to the placeholder at s1.pos, overwrite it with n as a
4-byte VINT, then seek forward to the data end s3.pos. -/
def vint4PatchAt (s1 s3 : ArrayBufferDataStream) (n : ℕ) : ArrayBufferDataStream :=
  (((((s3.seek s1.pos).writeU8 (jsOr 16 (jsShr ((n : ℕ) : ℤ) 24))).writeU8
    (jsShr ((n : ℕ) : ℤ) 16)).writeU8 (jsShr ((n : ℕ) : ℤ) 8)).writeU8 ((n : ℕ) : ℤ)).seek s3.pos

/-- Closed form of writeEBML on a determinate-size container with id 0xA3 and
a single raw-bytes child: id byte, 4-byte placeholder, the child bytes, then
the patch step with n = dataEnd - s2.pos. -/
theorem writeEBML_container163_raw (s : ArrayBufferDataStream) (off : ℕ) (bs : List ℤ) :
    writeEBML s off (Ebml.containerElem 163 false [Ebml.rawBytes bs]) =
      some (vint4PatchAt (s.writeU8 ((163 : ℕ) : ℤ))
        (((s.writeU8 ((163 : ℕ) : ℤ)).writeBytes [0, 0, 0, 0]).writeBytes bs)
        ((((s.writeU8 ((163 : ℕ) : ℤ)).writeBytes [0, 0, 0, 0]).writeBytes bs).pos -
          ((s.writeU8 ((163 : ℕ) : ℤ)).writeBytes [0, 0, 0, 0]).pos)) := by
  unfold writeEBML
  rw [if_neg (by decide)]
  rw [show ArrayBufferDataStream.writeUnsignedIntBE s ((163 : ℕ) : ℤ)
      (ArrayBufferDataStream.measureUnsignedInt ((163 : ℕ) : ℤ)) =
      some (s.writeU8 ((163 : ℕ) : ℤ)) from by
    rw [show ArrayBufferDataStream.measureUnsignedInt ((163 : ℕ) : ℤ) = 1 from by decide]
    try rfl]
  rw [Option.some_bind]
  rw [if_neg (by simp)]
  show (writeEBMLList ((s.writeU8 ((163 : ℕ) : ℤ)).writeBytes [0, 0, 0, 0]) off
      [Ebml.rawBytes bs]).bind (fun s3 =>
        (ArrayBufferDataStream.writeEBMLVarIntWidth
          (s3.seek (s.writeU8 ((163 : ℕ) : ℤ)).pos)
          (s3.pos - ((s.writeU8 ((163 : ℕ) : ℤ)).writeBytes [0, 0, 0, 0]).pos) 4).bind
          fun s4 => some (s4.seek s3.pos)) = _
  rw [writeEBMLList_single_raw]
  rw [Option.some_bind]
  rfl

/-- Counterexample to claim C3 as stated: for the container sizePatchBigElem,
whose serialized children occupy exactly 2^28 bytes, the write succeeds and
the placeholder lies well inside the capacity, yet the 4 bytes stored at the
placeholder decode to the VINT value 0, not to the children's byte count
268435456: the claimed equality fails because the size overflows the 28 value
bits of a 4-byte VINT. -/
theorem sizePatch_overflow_cex :
    (writeEBML sizePatchBigStream 0 sizePatchBigElem).isSome = true ∧
    ((writeEBML sizePatchBigStream 0 sizePatchBigElem).getD sizePatchBigStream).pos - (1 + 4)
      = 268435456 ∧
    decodeVInt (read4 ((writeEBML sizePatchBigStream 0 sizePatchBigElem).getD
      sizePatchBigStream).data 1) = some (0, 4) ∧
    ((0 : ℤ) ≠ ((268435456 : ℕ) : ℤ)) := by
  have hw := writeEBML_container163_raw sizePatchBigStream 0 (List.replicate 268435456 0)
  obtain ⟨s1, hs1⟩ : ∃ t, sizePatchBigStream.writeU8 ((163 : ℕ) : ℤ) = t := ⟨_, rfl⟩
  rw [hs1] at hw
  obtain ⟨s2, hs2⟩ : ∃ t, s1.writeBytes [0, 0, 0, 0] = t := ⟨_, rfl⟩
  rw [hs2] at hw
  obtain ⟨s3, hs3⟩ : ∃ t, s2.writeBytes (List.replicate 268435456 0) = t := ⟨_, rfl⟩
  rw [hs3] at hw
  have hpos1 : s1.pos = 1 := by
    simp only [← hs1, writeU8_eq, writeByte_pos, sizePatchBigStream, create_pos]
  have hpos2 : s2.pos = 5 := by
    simp only [← hs2, writeBytes_pos, hpos1, List.length_cons, List.length_nil]
  have hpos3 : s3.pos = 268435461 := by
    simp only [← hs3, writeBytes_pos, hpos2, List.length_replicate]
  have hlen3 : s3.data.length = 268435472 := by
    simp only [← hs3, ← hs2, ← hs1, writeBytes_length, writeU8_eq, writeByte_data,
      List.length_set, sizePatchBigStream, create_length]
  have hn : s3.pos - s2.pos = 268435456 := by omega
  rw [show sizePatchBigElem = Ebml.containerElem 163 false
    [Ebml.rawBytes (List.replicate 268435456 0)] from rfl]
  rw [hn] at hw
  refine ⟨?_, ?_, ?_, by decide⟩
  · simp only [hw, Option.isSome_some]
  · simp only [hw, Option.getD_some]
    unfold vint4PatchAt
    simp only [seek_pos]
    omega
  · simp only [hw, Option.getD_some]
    unfold vint4PatchAt
    simp only [seek_data, writeByte_data, writeU8_eq, writeByte_pos, seek_pos, hpos1]
    unfold read4
    rw [getD_set_other _ _ _ _ (by omega), getD_set_other _ _ _ _ (by omega),
      getD_set_other _ _ _ _ (by omega), getD_set_self _ _ _ (by omega)]
    rw [getD_set_other _ _ _ _ (by omega), getD_set_other _ _ _ _ (by omega),
      getD_set_self _ _ _ (by simp only [List.length_set]; omega)]
    rw [getD_set_other _ _ _ _ (by omega),
      getD_set_self _ _ _ (by simp only [List.length_set]; omega)]
    rw [getD_set_self _ _ _ (by simp only [List.length_set]; omega)]
    simp only [show toUint8 (jsOr 16 (jsShr ((268435456 : ℕ) : ℤ) 24)) = 16 from by decide,
      show toUint8 (jsShr ((268435456 : ℕ) : ℤ) 16) = 0 from by decide,
      show toUint8 (jsShr ((268435456 : ℕ) : ℤ) 8) = 0 from by decide,
      show toUint8 ((268435456 : ℕ) : ℤ) = 0 from by decide]
    decide

/-- Witness for sizePatchCorrect: a 16-byte stream, a container with id 0xA3
and a single 2-byte child; the patched size field decodes to 2. -/
theorem sizePatchCorrect_witness :
    (163 : ℕ) ≠ 0 ∧
    ∃ s1 s3,
      ArrayBufferDataStream.writeUnsignedIntBE (ArrayBufferDataStream.create 16)
        (((163 : ℕ)) : ℤ) (ArrayBufferDataStream.measureUnsignedInt (((163 : ℕ)) : ℤ)) =
        some s1 ∧
      s1.pos = (ArrayBufferDataStream.create 16).pos +
        ArrayBufferDataStream.measureUnsignedInt (((163 : ℕ)) : ℤ) ∧
      writeEBMLList (s1.writeBytes [0, 0, 0, 0]) 0 [Ebml.rawBytes [7, 8]] = some s3 ∧
      (ArrayBufferDataStream.mk [163, 16, 0, 0, 2, 7, 8, 0, 0, 0, 0, 0, 0, 0, 0, 0] 7).pos
        = s3.pos ∧
      decodeVInt (read4 (ArrayBufferDataStream.mk
        [163, 16, 0, 0, 2, 7, 8, 0, 0, 0, 0, 0, 0, 0, 0, 0] 7).data s1.pos) =
        some ((((ArrayBufferDataStream.mk [163, 16, 0, 0, 2, 7, 8, 0, 0, 0, 0, 0, 0, 0, 0, 0]
          7).pos - (s1.pos + 4) : ℕ) : ℤ), 4) := by
  have h : writeEBML (ArrayBufferDataStream.create 16) 0
      (Ebml.containerElem 163 false [Ebml.rawBytes [7, 8]]) =
      some (ArrayBufferDataStream.mk [163, 16, 0, 0, 2, 7, 8, 0, 0, 0, 0, 0, 0, 0, 0, 0] 7) := by
    rw [writeEBML_container163_raw]
    decide
  exact sizePatchCorrect (ArrayBufferDataStream.create 16) 0 163 [Ebml.rawBytes [7, 8]]
    (ArrayBufferDataStream.mk [163, 16, 0, 0, 2, 7, 8, 0, 0, 0, 0, 0, 0, 0, 0, 0] 7) h
    (by decide) (by decide)

/-! ### Export orchestrator keyframe cadence -/

/-- KEYFRAME_FREQUENCY from VideoBackend.ts. -/
def KEYFRAME_FREQUENCY : ℕ := 150

/-- The keyFrame flag computed in the render loop of renderToWritableStream:
frameIndex % KEYFRAME_FREQUENCY === 0. It is a function of the frame index
alone, independent of the rendered content. -/
def keyFrameForIndex (frameIndex : ℕ) : Bool := frameIndex % KEYFRAME_FREQUENCY == 0

/-- The keyframe flags handed to encoder.encode over an export of totalFrames
frames, in loop order. -/
def encodeKeyFrameFlags (totalFrames : ℕ) : List Bool :=
  (List.range totalFrames).map keyFrameForIndex

/-- Claim C8: for every frame index i in an export (i < totalFrames), the
frame is submitted with the forced-keyframe flag set exactly when
i mod 150 = 0, independent of frame content. -/
theorem keyframeCadence (totalFrames i : ℕ) (h : i < totalFrames) :
    (encodeKeyFrameFlags totalFrames).getD i false = true ↔ i % 150 = 0 := by
  unfold encodeKeyFrameFlags keyFrameForIndex KEYFRAME_FREQUENCY
  rw [List.getD, List.get?_eq_getElem?, List.getElem?_map, List.getElem?_range h]
  simp

/-- Witness for keyframeCadence at indices 150 (key) and 151 (not key) of a
300-frame export. -/
theorem keyframeCadence_witness :
    ((encodeKeyFrameFlags 300).getD 150 false = true ↔ 150 % 150 = 0) ∧
    ((encodeKeyFrameFlags 300).getD 151 false = true ↔ 151 % 150 = 0) :=
  ⟨keyframeCadence 300 150 (by decide), keyframeCadence 300 151 (by decide)⟩

/-! ### The clip compositor -/

/-- ClipProperties from Clip.ts: render window in microseconds, normalized
placement fields, rotation in radians; JS doubles embedded as rationals. -/
structure ClipProperties where
  renderStart : ℚ
  renderLength : ℚ
  posTop : ℚ
  posLeft : ℚ
  posWidth : ℚ
  posHeight : ℚ
  rotation : ℚ
deriving DecidableEq

/-- A 2D affine transform in canvas layout: the matrix columns (a, b), (c, d)
and the translation (e, f), mapping (x, y) to (ax + cy + e, bx + dy + f). -/
structure Mat where
  a : ℚ
  b : ℚ
  c : ℚ
  d : ℚ
  e : ℚ
  f : ℚ
deriving DecidableEq

/-- Canvas transform composition: m.mul n first applies n to the point, then
m, matching how each CanvasRenderingContext2D call post-multiplies the
current transform. -/
def Mat.mul (m n : Mat) : Mat :=
  ⟨m.a * n.a + m.c * n.b, m.b * n.a + m.d * n.b,
   m.a * n.c + m.c * n.d, m.b * n.c + m.d * n.d,
   m.a * n.e + m.c * n.f + m.e, m.b * n.e + m.d * n.f + m.f⟩

/-- Apply an affine transform to a point. -/
def Mat.applyP (m : Mat) (p : ℚ × ℚ) : ℚ × ℚ :=
  (m.a * p.1 + m.c * p.2 + m.e, m.b * p.1 + m.d * p.2 + m.f)

/-- Rotation matrix used by canvas rotate, with the cosine and sine of the
angle given. -/
def rotationMat (cosv sinv : ℚ) : Mat := ⟨cosv, sinv, -sinv, cosv, 0, 0⟩

/-- A drawing surface: its current transform plus whatever content state the
clip-specific drawing routine manipulates (kept abstract). -/
structure Canvas (α : Type) where
  transform : Mat
  content : α

/-- canvas.getTransform(). -/
def Canvas.getTransform {α : Type} (c : Canvas α) : Mat := c.transform

/-- canvas.transform(a, b, c, d, e, f): post-multiplies the current
transform. -/
def Canvas.transformBy {α : Type} (cv : Canvas α) (a b c d e f : ℚ) : Canvas α :=
  { cv with transform := cv.transform.mul ⟨a, b, c, d, e, f⟩ }

/-- canvas.rotate(angle): post-multiplies by the rotation matrix; cosF and
sinF stand for the cosine and sine functions used by the browser. -/
def Canvas.rotate {α : Type} (cv : Canvas α) (cosF sinF : ℚ → ℚ) (angle : ℚ) : Canvas α :=
  { cv with transform := cv.transform.mul (rotationMat (cosF angle) (sinF angle)) }

/-- canvas.setTransform(m): replaces the current transform. -/
def Canvas.setTransform {α : Type} (cv : Canvas α) (m : Mat) : Canvas α :=
  { cv with transform := m }

/-- Clip.render from Clip.ts: if the clip-type-specific simpleRender routine
exists, save the current transform, apply
canvas.transform(posWidth, 0, 0, posHeight, posLeft, posTop) then
canvas.rotate(rotation), invoke the routine with the clip-relative time
time - renderStart and the canvas dimensions, then restore the saved
transform with setTransform; without a routine the source throws (clip
cannot be rendered), modeled as none. -/
def Clip.render {α : Type} (cosF sinF : ℚ → ℚ)
    (simpleRender : Option (Canvas α → ℚ → ℚ → ℚ → Canvas α))
    (properties : ClipProperties) (canvas : Canvas α) (time width height : ℚ) :
    Option (Canvas α) :=
  match simpleRender with
  | none => none
  | some f =>
    let oldTransform := canvas.getTransform
    let c1 := canvas.transformBy properties.posWidth 0 0 properties.posHeight
      properties.posLeft properties.posTop
    let c2 := c1.rotate cosF sinF properties.rotation
    let c3 := f c2 (time - properties.renderStart) width height
    some (c3.setTransform oldTransform)

/-- Pointwise scaling, as the spec words the first stage of the affine
pipeline. -/
def specScalePoint (w h : ℚ) (p : ℚ × ℚ) : ℚ × ℚ := (w * p.1, h * p.2)

/-- Pointwise translation, the spec's second stage. -/
def specTranslatePoint (l t : ℚ) (p : ℚ × ℚ) : ℚ × ℚ := (p.1 + l, p.2 + t)

/-- Pointwise rotation, the spec's rotate stage, for a given cosine and
sine. -/
def specRotatePoint (cosv sinv : ℚ) (p : ℚ × ℚ) : ℚ × ℚ :=
  (cosv * p.1 - sinv * p.2, sinv * p.1 + cosv * p.2)

/-- The composite transform that Clip.render installs before invoking the
drawing routine: the prior transform post-multiplied by the
transform(posWidth, 0, 0, posHeight, posLeft, posTop) call and then by the
rotate(rotation) call. -/
def renderComposite (prior : Mat) (p : ClipProperties) (cosF sinF : ℚ → ℚ) : Mat :=
  (prior.mul (Mat.mk p.posWidth 0 0 p.posHeight p.posLeft p.posTop)).mul
    (rotationMat (cosF p.rotation) (sinF p.rotation))

/-- Claim C5: for every clip that has a type-specific drawing routine,
render saves the surface's transform, applies the affine transform of the
single canvas.transform call (scale components posWidth, posHeight and
translate components posLeft, posTop) followed by rotate(rotation), invokes
the routine with the clip-relative time time - renderStart, and afterwards
the surface's transform equals the saved prior transform while everything
else is exactly what the drawing routine produced. The applied composite,
acting on a point, is the prior transform after translate(posLeft, posTop)
after scale(posWidth, posHeight) after rotate(rotation): within the
transform call the point is scaled first and then translated, matching the
spec's scale-then-translate order, with the rotate call composed innermost
in the canvas post-multiplication convention. -/
theorem renderTransformDiscipline {α : Type} (cosF sinF : ℚ → ℚ)
    (f : Canvas α → ℚ → ℚ → ℚ → Canvas α) (p : ClipProperties) (canvas : Canvas α)
    (time width height : ℚ) :
    Clip.render cosF sinF (some f) p canvas time width height =
      some (Canvas.setTransform
        (f { canvas with transform := renderComposite canvas.transform p cosF sinF }
          (time - p.renderStart) width height)
        canvas.transform) ∧
    (∀ x y : ℚ, Mat.applyP (renderComposite canvas.transform p cosF sinF) (x, y) =
      Mat.applyP canvas.transform
        (specTranslatePoint p.posLeft p.posTop
          (specScalePoint p.posWidth p.posHeight
            (specRotatePoint (cosF p.rotation) (sinF p.rotation) (x, y))))) ∧
    (Clip.render cosF sinF (some f) p canvas time width height).map Canvas.transform =
      some canvas.transform := by
  refine ⟨rfl, ?_, ?_⟩
  · intro x y
    unfold renderComposite Mat.applyP Mat.mul rotationMat specTranslatePoint specScalePoint
      specRotatePoint
    simp only
    rw [Prod.mk.injEq]
    constructor <;> ring
  · rfl

/-! ### ImageSequenceClip -/

/-- The clamp helper from ImageSequenceClip.ts:
Math.min(Math.max(num, min), max). -/
def clamp (num mn mx : ℤ) : ℤ := min (max num mn) mx

/-- A drawImage invocation: the resource drawn (ImageResource identified by
its id) and the destination rectangle. -/
structure DrawImageCall where
  resource : ℕ
  dx : ℚ
  dy : ℚ
  dWidth : ℚ
  dHeight : ℚ
deriving DecidableEq

/-- ImageSequenceClip: its ClipProperties and its resources list, each
ImageResource stood for by its id. -/
structure ImageSequenceClip where
  properties : ClipProperties
  resources : List ℕ
deriving DecidableEq

/-- microsecondsPerClip as computed by update():
renderLength / resources.length. -/
def ImageSequenceClip.microsecondsPerClip (c : ImageSequenceClip) : ℚ :=
  c.properties.renderLength / (c.resources.length : ℚ)

/-- ImageSequenceClip.simpleRender(canvas, time, width, height): return
without drawing when the resource list is empty; otherwise clamp
Math.floor(time / microsecondsPerClip) into [0, resources.length - 1], index
the resources array there and draw that image over (0, 0, width, height). An
out-of-range index would make resources[i] undefined and asImage() fault,
modeled as none. -/
def ImageSequenceClip.simpleRender (c : ImageSequenceClip) (time width height : ℚ) :
    Option (List DrawImageCall) :=
  if c.resources.length < 1 then some [] else
    let resourceIndex : ℤ :=
      clamp (Rat.floor (time / c.microsecondsPerClip)) 0 ((c.resources.length : ℤ) - 1)
    match c.resources[resourceIndex.toNat]? with
    | some r => some [⟨r, 0, 0, width, height⟩]
    | none => none

/-- Claim C10: ImageSequenceClip.simpleRender never faults. With an empty
resource list it draws nothing and returns for every time, width and height;
with n resources (n nonzero, renderLength positive as the clip data model
requires) the accessed index equals
clamp(floor(time / (renderLength / n)), 0, n - 1), always lies within
bounds, and exactly one drawImage of that resource is produced, even for
negative times or times at or beyond renderLength. -/
theorem imageSequenceSafety (c : ImageSequenceClip) (time width height : ℚ) :
    (c.resources = [] → c.simpleRender time width height = some []) ∧
    (c.resources ≠ [] → 0 < c.properties.renderLength →
      (0 : ℤ) ≤ clamp (Rat.floor (time / (c.properties.renderLength /
        (c.resources.length : ℚ)))) 0 ((c.resources.length : ℤ) - 1) ∧
      clamp (Rat.floor (time / (c.properties.renderLength /
        (c.resources.length : ℚ)))) 0 ((c.resources.length : ℤ) - 1) ≤
        (c.resources.length : ℤ) - 1 ∧
      (c.resources[(clamp (Rat.floor (time / (c.properties.renderLength /
        (c.resources.length : ℚ)))) 0 ((c.resources.length : ℤ) - 1)).toNat]?).isSome
        = true ∧
      c.simpleRender time width height =
        (c.resources[(clamp (Rat.floor (time / (c.properties.renderLength /
          (c.resources.length : ℚ)))) 0 ((c.resources.length : ℤ) - 1)).toNat]?).map
          (fun r => [⟨r, 0, 0, width, height⟩])) := by
  constructor
  · intro h
    unfold ImageSequenceClip.simpleRender
    rw [if_pos (by simp [h])]
  · intro hne hL
    have hn : 1 ≤ c.resources.length := List.length_pos.mpr hne
    have hn' : (1 : ℤ) ≤ (c.resources.length : ℤ) := by exact_mod_cast hn
    have h0 : (0 : ℤ) ≤ clamp (Rat.floor (time / (c.properties.renderLength /
        (c.resources.length : ℚ)))) 0 ((c.resources.length : ℤ) - 1) := by
      unfold clamp
      omega
    have hle : clamp (Rat.floor (time / (c.properties.renderLength /
        (c.resources.length : ℚ)))) 0 ((c.resources.length : ℤ) - 1) ≤
        (c.resources.length : ℤ) - 1 := by
      unfold clamp
      omega
    have htn : (clamp (Rat.floor (time / (c.properties.renderLength /
        (c.resources.length : ℚ)))) 0 ((c.resources.length : ℤ) - 1)).toNat
        < c.resources.length := by omega
    have hr := List.getElem?_eq_some_iff.mpr ⟨htn, rfl⟩
    refine ⟨h0, hle, ?_, ?_⟩
    · rw [hr]
      rfl
    · unfold ImageSequenceClip.simpleRender
      rw [if_neg (by omega)]
      unfold ImageSequenceClip.microsecondsPerClip
      simp only [hr]
      rfl

/-- Witness for imageSequenceSafety: the empty-resource clip draws nothing at
a negative clip-relative time, and a 3-image clip accessed at time -5 keeps
its index inside [0, 2]. -/
theorem imageSequenceSafety_witness :
    (ImageSequenceClip.simpleRender ⟨⟨0, 3000000, 0, 0, 1, 1, 0⟩, []⟩ (-5) 1600 900
      = some []) ∧
    ((0 : ℤ) ≤ clamp (Rat.floor ((-5) / ((3000000 : ℚ) / (((3 : ℕ)) : ℚ)))) 0
      (((3 : ℕ) : ℤ) - 1) ∧
     clamp (Rat.floor ((-5) / ((3000000 : ℚ) / (((3 : ℕ)) : ℚ)))) 0 (((3 : ℕ) : ℤ) - 1) ≤
      (((3 : ℕ)) : ℤ) - 1 ∧
     (([10, 11, 12] : List ℕ)[(clamp (Rat.floor ((-5) / ((3000000 : ℚ) / (((3 : ℕ)) : ℚ))))
       0 (((3 : ℕ) : ℤ) - 1)).toNat]?).isSome = true ∧
     ImageSequenceClip.simpleRender ⟨⟨0, 3000000, 0, 0, 1, 1, 0⟩, [10, 11, 12]⟩ (-5) 1600 900 =
      (([10, 11, 12] : List ℕ)[(clamp (Rat.floor ((-5) / ((3000000 : ℚ) / (((3 : ℕ)) : ℚ))))
        0 (((3 : ℕ) : ℤ) - 1)).toNat]?).map (fun r => [⟨r, 0, 0, 1600, 900⟩])) :=
  ⟨(imageSequenceSafety ⟨⟨0, 3000000, 0, 0, 1, 1, 0⟩, []⟩ (-5) 1600 900).1 rfl,
   (imageSequenceSafety ⟨⟨0, 3000000, 0, 0, 1, 1, 0⟩, [10, 11, 12]⟩ (-5) 1600 900).2
     (by decide) (by decide)⟩

/-! ### The WebM muxer cluster state machine -/

/-- MAX_CLUSTER_DURATION_MSEC from the WebMWriter closure. -/
def MAX_CLUSTER_DURATION_MSEC : ℤ := 5000

/-- DEFAULT_TRACK_NUMBER from the WebMWriter closure. -/
def DEFAULT_TRACK_NUMBER : ℕ := 1

/-- Math.round on a JS number: floor(x + 1/2). -/
def jsRound (q : ℚ) : ℤ := Rat.floor (q + 1 / 2)

/-- An incoming EncodedVideoChunk as consumed by addFrame: payload bytes,
timestamp in microseconds, and whether chunk.type is key. -/
structure ChunkIn where
  bytes : List ℤ
  timestamp : ℚ
  isKey : Bool
deriving DecidableEq

/-- A CuePoint as pushed by addCuePoint: CueTrack, CueTime, and the
segment-relative CueClusterPosition. -/
structure Cue where
  track : ℕ
  time : ℤ
  clusterPosition : ℤ
deriving DecidableEq

/-- Ghost record of one completed addFrameToCluster call, carrying the
values the claims speak about: the normalized time, the clusterStartTime
used for the timecode, the timecode, whether the cluster frame buffer was
empty on entry, and clusterDuration right after the append. -/
structure AddRec where
  normTime : ℚ
  startUsed : ℚ
  timecode : ℤ
  bufWasEmpty : Bool
  durAfter : ℤ
deriving DecidableEq

/-- The WebMWriter closure state relevant to clustering. blobPos is the
output sink position; BlobBuffer is not among the sources, so it is modelled
from the spec: the output sink is append-only at a movable cursor, and
writing a byte sequence at the end advances the position by its length.
segmentDataOffset stands for the ebmlSegment.dataOffset fixed when the
header is written. clustersWritten counts the Cluster elements serialized;
rawLog and addLog are ghost instrumentation recording the incoming
timestamps and the per-call records. -/
structure MuxState where
  firstTimestampEver : Bool
  earliestTimestamp : ℚ
  clusterFrameBuffer : List Frame
  clusterStartTime : ℚ
  clusterDuration : ℤ
  lastTimeCode : ℚ
  cues : List Cue
  blobPos : ℕ
  segmentDataOffset : ℕ
  clustersWritten : ℕ
  rawLog : List ℚ
  addLog : List AddRec
deriving DecidableEq

/-- fileOffsetToSegmentRelative(fileOffset) = fileOffset -
ebmlSegment.dataOffset. -/
def fileOffsetToSegmentRelative (segmentDataOffset fileOffset : ℕ) : ℤ :=
  (fileOffset : ℤ) - (segmentDataOffset : ℤ)

/-- flushClusterFrameBuffer() from the source: return at once on an empty
buffer; otherwise serialize a Cluster element (id 0x1F43B675, a Timecode
child 0xE7 carrying Math.round(clusterStartTime), then one SimpleBlock per
buffered frame via createSimpleBlockForframe, exactly the createCluster
element with the blocks pushed into its data) into a fresh stream sized
rawImageSize + 64 bytes per frame, write it to the sink, add one CuePoint
(DEFAULT_TRACK_NUMBER, Math.round(clusterStartTime), the cluster's file
offset made segment-relative; the cluster's offset is the sink position,
since the cluster starts at position 0 of the fresh stream), then clear the
frame buffer and reset clusterDuration to 0. Validation or range errors
inside serialization propagate as none. -/
def flushClusterFrameBuffer (st : MuxState) : Option MuxState :=
  if st.clusterFrameBuffer = [] then some st
  else
    let rawImageSize := (st.clusterFrameBuffer.map (fun f => f.frame.length)).sum
    (st.clusterFrameBuffer.mapM createSimpleBlockForframe).bind fun blocks =>
      let cluster := Ebml.containerElem 0x1f43b675 false
        ([Ebml.uintElem 0xe7 none (jsRound st.clusterStartTime)] ++ blocks)
      let buffer := ArrayBufferDataStream.create
        (rawImageSize + st.clusterFrameBuffer.length * 64)
      (writeEBML buffer st.blobPos cluster).bind fun sbuf =>
        sbuf.getAsDataArray.bind fun bytes =>
          some { st with
            blobPos := st.blobPos + bytes.length,
            cues := st.cues ++ [⟨DEFAULT_TRACK_NUMBER, jsRound st.clusterStartTime,
              fileOffsetToSegmentRelative st.segmentDataOffset st.blobPos⟩],
            clusterFrameBuffer := [],
            clusterDuration := 0,
            clustersWritten := st.clustersWritten + 1 }

/-- addFrameToCluster(frame) from the source: set the track number, divide
the chunk timestamp by 1000, make the very first timestamp ever seen define
time zero, remember lastTimeCode, reset clusterStartTime when
clusterDuration is 0, compute the cluster-relative timecode
Math.round(time - clusterStartTime), append the frame, set clusterDuration
to timecode + 1, and flush once clusterDuration reaches
MAX_CLUSTER_DURATION_MSEC. -/
def addFrameToCluster (st : MuxState) (chunk : ChunkIn) : Option MuxState :=
  let time0 : ℚ := chunk.timestamp / 1000
  let time : ℚ := if st.firstTimestampEver then 0 else time0 - st.earliestTimestamp
  let earliest : ℚ := if st.firstTimestampEver then time0 else st.earliestTimestamp
  let clusterStartTime : ℚ := if st.clusterDuration = 0 then time else st.clusterStartTime
  let timecode : ℤ := jsRound (time - clusterStartTime)
  let frame : Frame := ⟨chunk.bytes, DEFAULT_TRACK_NUMBER, timecode, chunk.isKey⟩
  let st' : MuxState := { st with
    firstTimestampEver := false,
    earliestTimestamp := earliest,
    lastTimeCode := time,
    clusterStartTime := clusterStartTime,
    clusterFrameBuffer := st.clusterFrameBuffer ++ [frame],
    clusterDuration := timecode + 1,
    rawLog := st.rawLog ++ [chunk.timestamp],
    addLog := st.addLog ++ [⟨time, clusterStartTime, timecode,
      st.clusterFrameBuffer.isEmpty, timecode + 1⟩] }
  if MAX_CLUSTER_DURATION_MSEC ≤ timecode + 1 then flushClusterFrameBuffer st'
  else some st'

/-- A sequence of addFrame calls on EncodedVideoChunk inputs, stopping at
the first failure. -/
def runMux : MuxState → List ChunkIn → Option MuxState
  | st, [] => some st
  | st, c :: cs =>
    match addFrameToCluster st c with
    | some st' => runMux st' cs
    | none => none

/-- The muxer state right after the header has been written: nothing
buffered, no cues, first timestamp still pending. -/
def initMuxState (segmentDataOffset blobPos : ℕ) : MuxState :=
  ⟨true, 0, [], 0, 0, 0, [], blobPos, segmentDataOffset, 0, [], []⟩

/-- What a successful flush of a nonempty buffer does to the state: clears
the buffer, resets clusterDuration, appends exactly one CuePoint citing the
flushed cluster's file offset, bumps the cluster count, and leaves the
timing fields and ghost logs alone. -/
theorem flushClusterFrameBuffer_spec (st st' : MuxState)
    (hne : st.clusterFrameBuffer ≠ [])
    (h : flushClusterFrameBuffer st = some st') :
    st'.clusterFrameBuffer = [] ∧ st'.clusterDuration = 0 ∧
    st'.clustersWritten = st.clustersWritten + 1 ∧
    st'.cues = st.cues ++ [⟨DEFAULT_TRACK_NUMBER, jsRound st.clusterStartTime,
      fileOffsetToSegmentRelative st.segmentDataOffset st.blobPos⟩] ∧
    st'.firstTimestampEver = st.firstTimestampEver ∧
    st'.earliestTimestamp = st.earliestTimestamp ∧
    st'.clusterStartTime = st.clusterStartTime ∧
    st'.lastTimeCode = st.lastTimeCode ∧
    st'.rawLog = st.rawLog ∧ st'.addLog = st.addLog := by
  unfold flushClusterFrameBuffer at h
  rw [if_neg hne] at h
  rw [Option.bind_eq_some] at h
  obtain ⟨blocks, h1, h⟩ := h
  rw [Option.bind_eq_some] at h
  obtain ⟨sbuf, h2, h⟩ := h
  rw [Option.bind_eq_some] at h
  obtain ⟨bytes, h3, h⟩ := h
  simp only [Option.some.injEq] at h
  subst h
  exact ⟨rfl, rfl, rfl, rfl, rfl, rfl, rfl, rfl, rfl, rfl⟩

/-- The common final step of addFrameToCluster: with the frame already
appended (so the buffer is nonempty) either the duration bound triggers a
flush or the state passes through unchanged; either way the duration ends
below the bound and the cue count tracks the cluster count. -/
theorem muxStep_inv (d : ℤ) (t st' : MuxState)
    (hd : t.clusterDuration = d)
    (hbuf : t.clusterFrameBuffer ≠ [])
    (hcue : t.cues.length = t.clustersWritten)
    (h : (if MAX_CLUSTER_DURATION_MSEC ≤ d then flushClusterFrameBuffer t
      else some t) = some st') :
    st'.clusterDuration < MAX_CLUSTER_DURATION_MSEC ∧
    st'.cues.length = st'.clustersWritten := by
  split at h
  · have S := flushClusterFrameBuffer_spec t st' hbuf h
    refine ⟨?_, ?_⟩
    · rw [S.2.1]
      decide
    · rw [S.2.2.2.1, S.2.2.1]
      simp [hcue]
  · rename_i hlt
    simp only [Option.some.injEq] at h
    subst h
    exact ⟨by omega, hcue⟩

/-- One addFrameToCluster call keeps clusterDuration strictly under the
cluster bound and keeps the cue count equal to the cluster count. -/
theorem addFrame_countInv (st : MuxState) (c : ChunkIn) (st' : MuxState)
    (h : addFrameToCluster st c = some st')
    (hc : st.cues.length = st.clustersWritten) :
    st'.clusterDuration < MAX_CLUSTER_DURATION_MSEC ∧
    st'.cues.length = st'.clustersWritten := by
  unfold addFrameToCluster at h
  simp only [] at h
  refine muxStep_inv _ _ _ ?_ ?_ ?_ h
  · rfl
  · simp
  · simpa using hc

theorem runMux_countInv (cs : List ChunkIn) : ∀ (st st' : MuxState),
    runMux st cs = some st' →
    st.clusterDuration < MAX_CLUSTER_DURATION_MSEC →
    st.cues.length = st.clustersWritten →
    st'.clusterDuration < MAX_CLUSTER_DURATION_MSEC ∧
    st'.cues.length = st'.clustersWritten := by
  induction cs with
  | nil =>
    intro st st' h hd hc
    unfold runMux at h
    simp only [Option.some.injEq] at h
    subst h
    exact ⟨hd, hc⟩
  | cons c cs ih =>
    intro st st' h hd hc
    unfold runMux at h
    rcases h1 : addFrameToCluster st c with _ | st1
    · rw [h1] at h
      exact absurd h (by simp)
    rw [h1] at h
    have step := addFrame_countInv st c st1 h1 hc
    exact ih st1 st' h step.1 step.2

/-- Claim C2: after every completed addFrame call the open cluster's
clusterDuration is strictly below MAX_CLUSTER_DURATION_MSEC = 5000 (the
buffer is flushed as soon as it reaches 5000), every successful flush of a
nonempty buffer clears the frame buffer, resets clusterDuration to 0 and
appends exactly one CuePoint referencing the flushed cluster's file offset
(the sink position, made segment-relative), and along any successful run
from the freshly-written-header state the number of cue points equals the
number of Cluster elements written. -/
theorem clusterInvariant :
    (∀ st st' : MuxState, st.clusterFrameBuffer ≠ [] →
      flushClusterFrameBuffer st = some st' →
      st'.clusterFrameBuffer = [] ∧ st'.clusterDuration = 0 ∧
      st'.clustersWritten = st.clustersWritten + 1 ∧
      st'.cues = st.cues ++ [⟨DEFAULT_TRACK_NUMBER, jsRound st.clusterStartTime,
        fileOffsetToSegmentRelative st.segmentDataOffset st.blobPos⟩]) ∧
    (∀ (segOff blob0 : ℕ) (cs : List ChunkIn) (st : MuxState),
      runMux (initMuxState segOff blob0) cs = some st →
      st.clusterDuration < MAX_CLUSTER_DURATION_MSEC ∧
      st.cues.length = st.clustersWritten) := by
  constructor
  · intro st st' hne h
    have S := flushClusterFrameBuffer_spec st st' hne h
    exact ⟨S.1, S.2.1, S.2.2.1, S.2.2.2.1⟩
  · intro segOff blob0 cs st h
    exact runMux_countInv cs (initMuxState segOff blob0) st h
      (show (0 : ℤ) < 5000 from by decide) rfl

/-- Concrete nonempty-buffer state for the flush part of the clusterInvariant
witness: one buffered keyframe of one byte, cluster open for 1 msec, sink at
byte 100, segment data beginning at byte 50. -/
def c2FlushIn : MuxState :=
  ⟨false, 0, [⟨[9], 1, 0, true⟩], 0, 1, 0, [], 100, 50, 0, [0], [⟨0, 0, 0, true, 1⟩]⟩

/-- The state that flushing c2FlushIn produces: buffer cleared, duration
reset, one cue at segment-relative offset 100 - 50 = 50, and the 21 cluster
bytes advance the sink from 100 to 121. -/
def c2FlushOut : MuxState :=
  ⟨false, 0, [], 0, 0, 0, [⟨1, 0, 50⟩], 121, 50, 1, [0], [⟨0, 0, 0, true, 1⟩]⟩

/-- Witness for clusterInvariant: the flush part evaluated at c2FlushIn and
c2FlushOut, and the run part evaluated on a single chunk at timestamp 0 from
the fresh header state with segment data offset 50 and sink position 100. -/
theorem clusterInvariant_witness :
    (c2FlushOut.clusterFrameBuffer = [] ∧ c2FlushOut.clusterDuration = 0 ∧
      c2FlushOut.clustersWritten = c2FlushIn.clustersWritten + 1 ∧
      c2FlushOut.cues = c2FlushIn.cues ++ [⟨DEFAULT_TRACK_NUMBER,
        jsRound c2FlushIn.clusterStartTime,
        fileOffsetToSegmentRelative c2FlushIn.segmentDataOffset c2FlushIn.blobPos⟩]) ∧
    ((⟨false, 0, [⟨[7], 1, 0, true⟩], 0, 1, 0, [], 100, 50, 0, [0], [⟨0, 0, 0, true, 1⟩]⟩ :
        MuxState).clusterDuration < MAX_CLUSTER_DURATION_MSEC ∧
      (⟨false, 0, [⟨[7], 1, 0, true⟩], 0, 1, 0, [], 100, 50, 0, [0], [⟨0, 0, 0, true, 1⟩]⟩ :
        MuxState).cues.length =
        (⟨false, 0, [⟨[7], 1, 0, true⟩], 0, 1, 0, [], 100, 50, 0, [0], [⟨0, 0, 0, true, 1⟩]⟩ :
        MuxState).clustersWritten) :=
  ⟨clusterInvariant.1 c2FlushIn c2FlushOut (by decide) (by with_unfolding_all rfl),
   clusterInvariant.2 50 100 [⟨[7], 0, true⟩]
     ⟨false, 0, [⟨[7], 1, 0, true⟩], 0, 1, 0, [], 100, 50, 0, [0], [⟨0, 0, 0, true, 1⟩]⟩
     (by with_unfolding_all rfl)⟩

/-! ### Timestamp normalization -/

/-- Timestamps of a chunk list are nondecreasing, with an optional lower
bound carried along (the last timestamp already processed, if any). -/
def nondecrFrom : Option ℚ → List ℚ → Prop
  | _, [] => True
  | none, t :: ts => nondecrFrom (some t) ts
  | some p, t :: ts => p ≤ t ∧ nondecrFrom (some t) ts

/-- Default AddRec for indexed lookups. -/
def addRec0 : AddRec := ⟨0, 0, 0, false, 0⟩

/-- Default chunk for indexed lookups. -/
def chunk0 : ChunkIn := ⟨[], 0, false⟩

/-- The last raw timestamp the muxer has seen, if any. -/
def lastTS (st : MuxState) : Option ℚ :=
  if st.rawLog = [] then none else some (st.rawLog.getD (st.rawLog.length - 1) 0)

/-- Run invariant behind the timestamp-normalization claim: the ghost logs
line up, firstTimestampEver flags an empty history, earliestTimestamp is the
first raw timestamp in milliseconds, lastTimeCode is the last normalized
time, the buffer is empty exactly when clusterDuration is 0, and every
logged call has the claimed normalized time, timecode, start-reset and
duration facts. -/
def C4Inv (st : MuxState) : Prop :=
  st.addLog.length = st.rawLog.length ∧
  (st.firstTimestampEver = true ↔ st.rawLog = []) ∧
  (st.rawLog ≠ [] → st.earliestTimestamp = st.rawLog.getD 0 0 / 1000) ∧
  (st.rawLog ≠ [] → st.lastTimeCode =
    st.rawLog.getD (st.rawLog.length - 1) 0 / 1000 - st.rawLog.getD 0 0 / 1000) ∧
  (st.clusterFrameBuffer = [] ↔ st.clusterDuration = 0) ∧
  (st.rawLog = [] → st.clusterFrameBuffer = []) ∧
  (st.clusterDuration ≠ 0 → st.clusterStartTime ≤ st.lastTimeCode) ∧
  (∀ i, i < st.rawLog.length →
    (st.addLog.getD i addRec0).normTime =
      st.rawLog.getD i 0 / 1000 - st.rawLog.getD 0 0 / 1000 ∧
    (st.addLog.getD i addRec0).timecode =
      jsRound ((st.addLog.getD i addRec0).normTime - (st.addLog.getD i addRec0).startUsed) ∧
    ((st.addLog.getD i addRec0).bufWasEmpty = true →
      (st.addLog.getD i addRec0).startUsed = (st.addLog.getD i addRec0).normTime) ∧
    (st.addLog.getD i addRec0).durAfter = (st.addLog.getD i addRec0).timecode + 1)

/-- Math.round never takes a nonnegative argument below zero. -/
theorem jsRound_nonneg (q : ℚ) (h : 0 ≤ q) : 0 ≤ jsRound q := by
  unfold jsRound
  exact Rat.le_floor.mpr (by push_cast; linarith)

theorem getD_append_lt {α : Type} (l l' : List α) (d : α) (i : ℕ) (h : i < l.length) :
    (l ++ l').getD i d = l.getD i d := by
  simp [List.getD, List.get?_eq_getElem?, List.getElem?_append_left h]

theorem getD_append_len {α : Type} (l : List α) (x d : α) :
    (l ++ [x]).getD l.length d = x := by
  rw [List.getD, List.get?_eq_getElem?, List.getElem?_append_right (Nat.le_refl _)]
  simp

theorem getD_map_timestamp (cs : List ChunkIn) (i : ℕ) (hi : i < cs.length) :
    (cs.map ChunkIn.timestamp).getD i 0 = (cs.getD i chunk0).timestamp := by
  simp [List.getD, List.getElem?_map, List.getElem?_eq_getElem hi]

/-- Flushing, when the duration bound forces it, preserves the
timestamp-normalization invariant: flush only clears the buffer and the
duration together and touches neither the logs nor the timing fields. -/
theorem muxStep_C4 (d : ℤ) (t st' : MuxState) (raw' : List ℚ)
    (hbuf : t.clusterFrameBuffer ≠ [])
    (hinv : C4Inv t)
    (hraw : t.rawLog = raw')
    (h : (if MAX_CLUSTER_DURATION_MSEC ≤ d then flushClusterFrameBuffer t
      else some t) = some st') :
    C4Inv st' ∧ st'.rawLog = raw' := by
  split at h
  · obtain ⟨hb, hdur, _, _, hfirst, hearly, hstart, hlast, hrawS, hadd⟩ :=
      flushClusterFrameBuffer_spec t st' hbuf h
    obtain ⟨i1, i2, i3, i4, i5, i6, i7, i8⟩ := hinv
    refine ⟨⟨?_, ?_, ?_, ?_, ?_, ?_, ?_, ?_⟩, hrawS.trans hraw⟩
    · rw [hadd, hrawS]
      exact i1
    · rw [hfirst, hrawS]
      exact i2
    · rw [hearly, hrawS]
      exact i3
    · rw [hlast, hrawS]
      exact i4
    · rw [hb, hdur]
      simp
    · rw [hb]
      intro _
      rfl
    · rw [hdur]
      intro h0
      exact absurd rfl h0
    · rw [hadd, hrawS]
      exact i8
  · rename_i hlt
    simp only [Option.some.injEq] at h
    subst h
    exact ⟨hinv, hraw⟩

/-- Appending the incoming frame (before any flush) establishes the
timestamp-normalization invariant for the updated state, given the incoming
timestamp is at least the last one seen. The abstract variables time,
earliest, startUsed, tc and bufEmpty stand for the let-bound values of
addFrameToCluster, pinned by the accompanying equations. -/
theorem appended_C4Inv (st : MuxState) (f : Frame) (ts time earliest startUsed : ℚ)
    (tc : ℤ) (bufEmpty : Bool)
    (hinv : C4Inv st)
    (htime : time = if st.firstTimestampEver then 0 else ts / 1000 - st.earliestTimestamp)
    (hearliest : earliest = if st.firstTimestampEver then ts / 1000 else st.earliestTimestamp)
    (hstart : startUsed = if st.clusterDuration = 0 then time else st.clusterStartTime)
    (htc : tc = jsRound (time - startUsed))
    (hbe : bufEmpty = st.clusterFrameBuffer.isEmpty)
    (hord : ∀ p, lastTS st = some p → p ≤ ts) :
    C4Inv { st with
      firstTimestampEver := false,
      earliestTimestamp := earliest,
      lastTimeCode := time,
      clusterStartTime := startUsed,
      clusterFrameBuffer := st.clusterFrameBuffer ++ [f],
      clusterDuration := tc + 1,
      rawLog := st.rawLog ++ [ts],
      addLog := st.addLog ++ [⟨time, startUsed, tc, bufEmpty, tc + 1⟩] } := by
  obtain ⟨i1, i2, i3, i4, i5, i6, i7, i8⟩ := hinv
  have hf : st.firstTimestampEver = true → st.rawLog = [] := i2.mp
  have hfr : st.firstTimestampEver = false → st.rawLog ≠ [] := by
    intro hfe he
    rw [i2.mpr he] at hfe
    exact Bool.true_eq_false.mp hfe
  have htime' : time = (st.rawLog ++ [ts]).getD st.rawLog.length 0 / 1000 -
      (st.rawLog ++ [ts]).getD 0 0 / 1000 := by
    rw [getD_append_len]
    rcases hfb : st.firstTimestampEver with _ | _
    · have hrne := hfr hfb
      rw [getD_append_lt _ _ _ _ (List.length_pos.mpr hrne)]
      rw [htime, hfb, if_neg (by simp), i3 hrne]
    · have hre := hf hfb
      rw [hre]
      rw [htime, hfb, if_pos rfl]
      simp
  have hsu : startUsed ≤ time := by
    rw [hstart]
    by_cases hd0 : st.clusterDuration = 0
    · rw [if_pos hd0]
    · rw [if_neg hd0]
      have hbne : st.clusterFrameBuffer ≠ [] := fun e => hd0 (i5.mp e)
      have hrne : st.rawLog ≠ [] := fun e => hbne (i6 e)
      have hfb : st.firstTimestampEver = false := by
        rcases hq : st.firstTimestampEver with _ | _
        · rfl
        · exact absurd (hf hq) hrne
      have hlast := i4 hrne
      have h7 := i7 hd0
      have hordL : st.rawLog.getD (st.rawLog.length - 1) 0 ≤ ts := by
        refine hord _ ?_
        unfold lastTS
        rw [if_neg hrne]
      have hdiv : st.rawLog.getD (st.rawLog.length - 1) 0 / 1000 ≤ ts / 1000 := by
        have h1000 : (0 : ℚ) < 1000 := by norm_num
        exact (div_le_div_iff_of_pos_right h1000).mpr hordL
      rw [htime, hfb, if_neg (by simp), i3 hrne]
      rw [hlast] at h7
      linarith
  have htc0 : 0 ≤ tc := by
    rw [htc]
    exact jsRound_nonneg _ (by linarith)
  refine ⟨?_, ?_, ?_, ?_, ?_, ?_, ?_, ?_⟩
  · simp [i1]
  · simp
  · intro _
    rcases hfb : st.firstTimestampEver with _ | _
    · have hrne := hfr hfb
      rw [getD_append_lt _ _ _ _ (List.length_pos.mpr hrne)]
      rw [hearliest, hfb, if_neg (by simp)]
      exact i3 hrne
    · have hre := hf hfb
      rw [hre]
      rw [hearliest, hfb, if_pos rfl]
      rfl
  · intro _
    simp only [List.length_append, List.length_cons, List.length_nil, Nat.add_sub_cancel]
    exact htime'
  · constructor
    · intro e
      exact absurd e (by simp)
    · intro e
      have e' : tc + 1 = 0 := e
      exact absurd e' (by omega)
  · intro e
    exact absurd e (by simp)
  · intro _
    exact hsu
  · intro i hi
    simp only [List.length_append, List.length_cons, List.length_nil] at hi
    by_cases hilt : i < st.rawLog.length
    · have hialt : i < st.addLog.length := by omega
      have h0lt : 0 < st.rawLog.length := by omega
      rw [getD_append_lt _ _ _ _ hialt, getD_append_lt _ _ _ _ hilt,
        getD_append_lt _ _ _ _ h0lt]
      exact i8 i hilt
    · have hieq : i = st.rawLog.length := by omega
      subst hieq
      have hia : st.rawLog.length = st.addLog.length := i1.symm
      rw [show (st.addLog ++ [(⟨time, startUsed, tc, bufEmpty, tc + 1⟩ : AddRec)]).getD
          st.rawLog.length addRec0 = ⟨time, startUsed, tc, bufEmpty, tc + 1⟩ from by
        rw [hia, getD_append_len]]
      refine ⟨htime', by simpa using htc, ?_, rfl⟩
      intro hbet
      have hbufe : st.clusterFrameBuffer = [] := by
        rw [hbe] at hbet
        exact List.isEmpty_iff.mp hbet
      have hd0 := i5.mp hbufe
      rw [hstart, if_pos hd0]

/-- One completed addFrameToCluster call preserves the
timestamp-normalization invariant and appends the raw timestamp to the ghost
log, provided the incoming timestamp is no earlier than the last one. -/
theorem addFrame_C4Inv (st : MuxState) (c : ChunkIn) (st' : MuxState)
    (h : addFrameToCluster st c = some st')
    (hinv : C4Inv st)
    (hord : ∀ p, lastTS st = some p → p ≤ c.timestamp) :
    C4Inv st' ∧ st'.rawLog = st.rawLog ++ [c.timestamp] := by
  unfold addFrameToCluster at h
  simp only [] at h
  refine muxStep_C4 _ _ _ _ ?_ ?_ ?_ h
  · simp
  · exact appended_C4Inv st _ c.timestamp _ _ _ _ _ hinv rfl rfl rfl rfl rfl hord
  · rfl

/-- Running the muxer over chunks with nondecreasing timestamps (relative to
whatever was already processed) preserves the timestamp-normalization
invariant and extends the raw ghost log by exactly those timestamps. -/
theorem runMux_C4Inv (cs : List ChunkIn) : ∀ (st st' : MuxState),
    C4Inv st →
    nondecrFrom (lastTS st) (cs.map ChunkIn.timestamp) →
    runMux st cs = some st' →
    C4Inv st' ∧ st'.rawLog = st.rawLog ++ cs.map ChunkIn.timestamp := by
  induction cs with
  | nil =>
    intro st st' hinv _ h
    unfold runMux at h
    simp only [Option.some.injEq] at h
    subst h
    exact ⟨hinv, by simp⟩
  | cons c cs ih =>
    intro st st' hinv hchain h
    unfold runMux at h
    rcases h1 : addFrameToCluster st c with _ | st1
    · rw [h1] at h
      exact absurd h (by simp)
    rw [h1] at h
    have hord : ∀ p, lastTS st = some p → p ≤ c.timestamp := by
      intro p hp
      rw [hp] at hchain
      unfold nondecrFrom at hchain
      exact hchain.1
    have step := addFrame_C4Inv st c st1 h1 hinv hord
    have hlast1 : lastTS st1 = some c.timestamp := by
      unfold lastTS
      rw [step.2]
      rw [if_neg (by simp)]
      rw [List.length_append]
      simp only [List.length_cons, List.length_nil, Nat.add_sub_cancel]
      rw [getD_append_len]
    have hchain1 : nondecrFrom (lastTS st1) (cs.map ChunkIn.timestamp) := by
      rw [hlast1]
      rcases hl : lastTS st with _ | p
      · rw [hl] at hchain
        unfold nondecrFrom at hchain
        exact hchain
      · rw [hl] at hchain
        unfold nondecrFrom at hchain
        exact hchain.2
    have rest := ih st1 st' step.1 hchain1 h
    refine ⟨rest.1, ?_⟩
    rw [rest.2, step.2]
    simp

/-- Claim C4: along any successful run from the freshly-written-header
state over chunks with nondecreasing timestamps, one ghost record was logged
per chunk; the very first chunk defines time zero, so every chunk's
normalized time is its millisecond timestamp minus the first chunk's
millisecond timestamp (0 for the first chunk itself); each queued frame's
cluster-relative timecode is round(normalizedTime - clusterStartTime) for
the clusterStartTime in effect; whenever the cluster buffer was empty on
entry, that frame's normalized time became the new clusterStartTime; and
right after each append clusterDuration equals that frame's timecode + 1. -/
theorem timestampNormalization (segOff blob0 : ℕ) (cs : List ChunkIn) (st : MuxState)
    (hchain : nondecrFrom none (cs.map ChunkIn.timestamp))
    (h : runMux (initMuxState segOff blob0) cs = some st) :
    st.addLog.length = cs.length ∧
    (0 < cs.length → (st.addLog.getD 0 addRec0).normTime = 0) ∧
    ∀ i, i < cs.length →
      (st.addLog.getD i addRec0).normTime =
        (cs.getD i chunk0).timestamp / 1000 - (cs.getD 0 chunk0).timestamp / 1000 ∧
      (st.addLog.getD i addRec0).timecode =
        jsRound ((st.addLog.getD i addRec0).normTime - (st.addLog.getD i addRec0).startUsed) ∧
      ((st.addLog.getD i addRec0).bufWasEmpty = true →
        (st.addLog.getD i addRec0).startUsed = (st.addLog.getD i addRec0).normTime) ∧
      (st.addLog.getD i addRec0).durAfter = (st.addLog.getD i addRec0).timecode + 1 := by
  have hin : C4Inv (initMuxState segOff blob0) := by
    refine ⟨rfl, by simp [initMuxState], by simp [initMuxState], by simp [initMuxState],
      by simp [initMuxState], by simp [initMuxState], by simp [initMuxState], ?_⟩
    intro i hi
    simp [initMuxState] at hi
  have hlt : lastTS (initMuxState segOff blob0) = none := by
    unfold lastTS initMuxState
    rw [if_pos rfl]
  have run := runMux_C4Inv cs _ _ hin (by rw [hlt]; exact hchain) h
  have hraw : st.rawLog = cs.map ChunkIn.timestamp := by
    rw [run.2]
    simp [initMuxState]
  obtain ⟨i1, _, _, _, _, _, _, i8⟩ := run.1
  have main : ∀ i, i < cs.length →
      (st.addLog.getD i addRec0).normTime =
        (cs.getD i chunk0).timestamp / 1000 - (cs.getD 0 chunk0).timestamp / 1000 ∧
      (st.addLog.getD i addRec0).timecode =
        jsRound ((st.addLog.getD i addRec0).normTime - (st.addLog.getD i addRec0).startUsed) ∧
      ((st.addLog.getD i addRec0).bufWasEmpty = true →
        (st.addLog.getD i addRec0).startUsed = (st.addLog.getD i addRec0).normTime) ∧
      (st.addLog.getD i addRec0).durAfter = (st.addLog.getD i addRec0).timecode + 1 := by
    intro i hi
    have hi' : i < st.rawLog.length := by
      rw [hraw, List.length_map]
      exact hi
    have P := i8 i hi'
    rw [hraw, getD_map_timestamp _ _ hi,
      getD_map_timestamp _ _ (Nat.lt_of_le_of_lt (Nat.zero_le i) hi)] at P
    exact P
  refine ⟨by rw [i1, hraw, List.length_map], ?_, main⟩
  intro h0
  rw [(main 0 h0).1]
  ring

/-- The two-chunk input of the timestampNormalization witness: timestamps 0
and 1000000 microseconds (a second apart, nondecreasing). -/
def c4Chunks : List ChunkIn := [⟨[7], 0, true⟩, ⟨[8], 1000000, false⟩]

/-- The state after running the witness chunks from the fresh header state:
both frames buffered (no flush), normalized times 0 and 1000 msec logged. -/
def c4Final : MuxState :=
  ⟨false, 0, [⟨[7], 1, 0, true⟩, ⟨[8], 1, 1000, false⟩], 0, 1001, 1000, [], 100, 50, 0,
    [0, 1000000], [⟨0, 0, 0, true, 1⟩, ⟨1000, 0, 1000, false, 1001⟩]⟩

/-- Witness for timestampNormalization: run both witness chunks from the
fresh header state with segment data offset 50 and sink position 100. -/
theorem timestampNormalization_witness :
    c4Final.addLog.length = c4Chunks.length ∧
    (0 < c4Chunks.length → (c4Final.addLog.getD 0 addRec0).normTime = 0) ∧
    ∀ i, i < c4Chunks.length →
      (c4Final.addLog.getD i addRec0).normTime =
        (c4Chunks.getD i chunk0).timestamp / 1000 - (c4Chunks.getD 0 chunk0).timestamp / 1000 ∧
      (c4Final.addLog.getD i addRec0).timecode =
        jsRound ((c4Final.addLog.getD i addRec0).normTime -
          (c4Final.addLog.getD i addRec0).startUsed) ∧
      ((c4Final.addLog.getD i addRec0).bufWasEmpty = true →
        (c4Final.addLog.getD i addRec0).startUsed =
          (c4Final.addLog.getD i addRec0).normTime) ∧
      (c4Final.addLog.getD i addRec0).durAfter =
        (c4Final.addLog.getD i addRec0).timecode + 1 :=
  timestampNormalization 50 100 c4Chunks c4Final
    (show (0 : ℚ) ≤ 1000000 ∧ True from ⟨by norm_num, trivial⟩)
    (by with_unfolding_all rfl)
